import Mathlib

/-!
# Verification of the quote-aggregation engine

A shallow embedding of the Rust quote-aggregation service
(`src/services/quote_router.rs`, `src/services/quote_service.rs`,
`src/utils/format_swap_details.rs`, `src/utils/filter_dapps.rs`,
`src/utils/fetch_token_details.rs`, `src/utils/utils.rs`) together with
theorems checking the specification's claims against it.

JSON values (`serde_json::Value`) are modelled by the inductive `Json`;
machine integers by `Nat`/`Int` with explicit bounds where overflow
matters; IEEE binary64 (`f64`) arithmetic by exact rational arithmetic
composed with the round-to-nearest-even function `rnd`; network and
filesystem effects by explicit oracle parameters and an event trace.
-/

set_option maxRecDepth 8000

attribute [local semireducible] Rat.mul Rat.add Rat.sub Rat.inv

/-- Model of `serde_json::Value`.  Objects are association lists (serde's
map with unique keys, iterated in order); numbers carry the exact rational
value of the stored `f64`/`u64`. -/
inductive Json where
  | null
  | bool (b : Bool)
  | num (q : ℚ)
  | str (s : String)
  | arr (xs : List Json)
  | obj (fs : List (String × Json))

/-- `Value::get(key)`: `Some` field value on objects, `None` otherwise. -/
def Json.get? (v : Json) (k : String) : Option Json :=
  match v with
  | .obj fs => (fs.find? (fun f => f.1 == k)).map Prod.snd
  | _ => none

/-- `value[key]` (the `Index` impl on `Value`): missing keys and
non-objects give `Null`. -/
def Json.idx (v : Json) (k : String) : Json :=
  (v.get? k).getD .null

/-- `value[i]` for array index: out-of-range and non-arrays give `Null`. -/
def Json.at (v : Json) (i : ℕ) : Json :=
  match v with
  | .arr xs => xs.getD i .null
  | _ => .null

/-- `Value::as_str`. -/
def Json.asStr : Json → Option String
  | .str s => some s
  | _ => none

/-- `Value::as_bool`. -/
def Json.asBool : Json → Option Bool
  | .bool b => some b
  | _ => none

/-- `Value::as_f64`: any JSON number, as its exact rational value. -/
def Json.asF64 : Json → Option ℚ
  | .num q => some q
  | _ => none

/-- `Value::as_u64`: numbers that are unsigned 64-bit integers. -/
def Json.asU64 : Json → Option ℕ
  | .num q => if q.den = 1 ∧ 0 ≤ q.num ∧ q.num < 2 ^ 64 then some q.num.toNat else none
  | _ => none

/-- `Value::as_array`. -/
def Json.asArr : Json → Option (List Json)
  | .arr xs => some xs
  | _ => none

/-- `Value::as_object` (as the field list). -/
def Json.asObj : Json → Option (List (String × Json))
  | .obj fs => some fs
  | _ => none

/-- `value.is_null()`. -/
def Json.isNull : Json → Bool
  | .null => true
  | _ => false

/-- Assignment `value[key] = x` on objects (replaces the first binding or
appends); on `Null` serde_json creates a fresh object.  Indexing into any
other variant panics in Rust and is unreachable from the embedded code. -/
def Json.set (v : Json) (k : String) (x : Json) : Json :=
  match v with
  | .obj fs =>
    .obj (if (fs.find? (fun f => f.1 == k)).isSome
          then fs.map (fun f => if f.1 == k then (k, x) else f)
          else fs ++ [(k, x)])
  | .null => .obj [(k, x)]
  | w => w

/-- `U256::from_dec_str`: decimal digits only, value below `2^256`. -/
def parseDecNat (s : String) : Option ℕ :=
  if s.length ≠ 0 ∧ s.data.all (fun c => c.isDigit) then
    let n := s.data.foldl (fun acc c => acc * 10 + (c.toNat - 48)) 0
    if n < 2 ^ 256 then some n else none
  else none

/-!
## IEEE binary64 rounding

`rnd q` is the rational value of the binary64 float nearest to `q` (ties
to even), for `q` in the binary64 normal range; every floating-point
operation `x ⊕ y` in the source is modelled as `rnd` applied to the exact
rational result.  Every quantity arising in this development stays inside
the normal range, so overflow to infinity and subnormal underflow are not
modelled.
-/

/-- `⌊q⌋` as an executable function (`Int.ediv` of numerator by
denominator); proved equal to `Int.floor` below. -/
def qfloor (q : ℚ) : ℤ := q.num.ediv q.den

/-- Fuel-driven binary logarithm on naturals: for `1 ≤ n ≤ fuel`,
`2 ^ flog2 fuel n ≤ n < 2 ^ (flog2 fuel n + 1)`. -/
def flog2 : ℕ → ℕ → ℕ
  | 0, _ => 0
  | f + 1, n => if 2 ≤ n then flog2 f (n / 2) + 1 else 0

/-- Fuel-driven co-logarithm on rationals: the least `c ≤ fuel` with
`1 ≤ q * 2 ^ c`. -/
def clq : ℕ → ℚ → ℕ
  | 0, _ => 0
  | f + 1, q => if 1 ≤ q then 0 else clq f (2 * q) + 1

/-- The binade exponent of a positive rational: the unique `e` with
`2 ^ e ≤ q < 2 ^ (e + 1)`. -/
def qlog2 (q : ℚ) : ℤ :=
  if 1 ≤ q then ((flog2 (qfloor q).toNat (qfloor q).toNat : ℕ) : ℤ)
  else -((clq q.den q : ℕ) : ℤ)

/-- `2 ^ z` over ℚ by an executable route; proved equal to `zpow` below. -/
def pow2 (z : ℤ) : ℚ :=
  if 0 ≤ z then ((2 ^ z.toNat : ℕ) : ℚ) else 1 / ((2 ^ (-z).toNat : ℕ) : ℚ)

/-- Round a rational to an integer, ties to even. -/
def rhe (q : ℚ) : ℤ :=
  if q - qfloor q < 1 / 2 then qfloor q
  else if 1 / 2 < q - qfloor q then qfloor q + 1
  else if qfloor q % 2 = 0 then qfloor q else qfloor q + 1

/-- Round a positive rational to 53 significant bits, ties to even. -/
def rndPos (q : ℚ) : ℚ :=
  (rhe (q * pow2 (52 - qlog2 q)) : ℚ) * pow2 (qlog2 q - 52)

/-- Round a rational to the nearest binary64 value (normal range). -/
def rnd (q : ℚ) : ℚ :=
  if q = 0 then 0 else if 0 < q then rndPos q else -rndPos (-q)

theorem qfloor_eq (q : ℚ) : qfloor q = ⌊q⌋ := by
  have hd0 : (q.den : ℤ) ≠ 0 := by exact_mod_cast q.den_nz
  have hdpos : (0 : ℤ) < (q.den : ℤ) := by exact_mod_cast q.pos
  have hdq : (0 : ℚ) < (q.den : ℚ) := by exact_mod_cast q.pos
  symm
  rw [Int.floor_eq_iff]
  constructor
  · rw [← mul_le_mul_right hdq, Rat.mul_den_eq_num]
    have := Int.ediv_mul_le q.num hd0
    simp only [qfloor]
    exact_mod_cast this
  · rw [← mul_lt_mul_right hdq, Rat.mul_den_eq_num]
    have h : q.num < (q.num.ediv q.den + 1) * q.den :=
      Int.lt_ediv_add_one_mul_self q.num hdpos
    simp only [qfloor]
    exact_mod_cast h

theorem rhe_eq_floor_ite (q : ℚ) : rhe q =
    if q - ⌊q⌋ < 1 / 2 then ⌊q⌋
    else if 1 / 2 < q - ⌊q⌋ then ⌊q⌋ + 1
    else if ⌊q⌋ % 2 = 0 then ⌊q⌋ else ⌊q⌋ + 1 := by
  simp only [rhe, qfloor_eq]

theorem floor_le_rhe (q : ℚ) : ⌊q⌋ ≤ rhe q := by
  rw [rhe_eq_floor_ite]; split_ifs <;> omega

theorem rhe_le_floor_add_one (q : ℚ) : rhe q ≤ ⌊q⌋ + 1 := by
  rw [rhe_eq_floor_ite]; split_ifs <;> omega

theorem rhe_intCast (n : ℤ) : rhe (n : ℚ) = n := by
  rw [rhe_eq_floor_ite, Int.floor_intCast]
  have h : (n : ℚ) - n = 0 := by ring
  rw [h]
  norm_num

theorem rhe_mono {p q : ℚ} (h : p ≤ q) : rhe p ≤ rhe q := by
  have hf : ⌊p⌋ ≤ ⌊q⌋ := Int.floor_le_floor h
  rcases lt_or_eq_of_le hf with hlt | heq
  · calc rhe p ≤ ⌊p⌋ + 1 := rhe_le_floor_add_one p
      _ ≤ ⌊q⌋ := by omega
      _ ≤ rhe q := floor_le_rhe q
  · have hd : p - ⌊p⌋ ≤ q - ⌊q⌋ := by
      rw [← heq]; linarith
    rw [rhe_eq_floor_ite, rhe_eq_floor_ite, ← heq]
    rw [← heq] at hd
    split_ifs <;> first | omega | linarith

theorem pow2_eq (z : ℤ) : pow2 z = (2 : ℚ) ^ z := by
  unfold pow2
  split_ifs with h
  · push_cast
    rw [← zpow_natCast, Int.toNat_of_nonneg h]
  · push_cast
    rw [one_div, ← zpow_natCast, Int.toNat_of_nonneg (by omega : (0:ℤ) ≤ -z),
      ← zpow_neg, neg_neg]

theorem pow2_pos (z : ℤ) : 0 < pow2 z := by
  rw [pow2_eq]; positivity

theorem flog2_spec : ∀ (f n : ℕ), 1 ≤ n → n ≤ f →
    2 ^ flog2 f n ≤ n ∧ n < 2 ^ (flog2 f n + 1)
  | 0, n => by intro h1 h2; omega
  | f + 1, n => by
    intro h1 h2
    rw [flog2]
    split_ifs with h
    · have hrec := flog2_spec f (n / 2) (by omega) (by omega)
      have h2a : (2:ℕ) ^ (flog2 f (n / 2) + 1) = 2 * 2 ^ flog2 f (n / 2) := by ring
      have h2b : (2:ℕ) ^ (flog2 f (n / 2) + 1 + 1) = 2 * 2 ^ (flog2 f (n / 2) + 1) := by ring
      omega
    · simp only [pow_zero, pow_one]
      omega

theorem clq_spec : ∀ (f : ℕ) (q : ℚ), 0 < q → q < 2 → 1 ≤ q * 2 ^ f →
    1 ≤ q * 2 ^ clq f q ∧ q * 2 ^ clq f q < 2
  | 0, q => by
    intro h0 h2 hf
    rw [clq]
    norm_num at hf ⊢
    exact ⟨hf, h2⟩
  | f + 1, q => by
    intro h0 h2 hf
    rw [clq]
    split_ifs with h
    · norm_num
      exact ⟨h, h2⟩
    · have hf' : 1 ≤ (2 * q) * 2 ^ f := by
        rw [pow_succ] at hf; linarith [hf]
      have hrec := clq_spec f (2 * q) (by positivity) (by linarith [not_le.mp h]) hf'
      have heq : q * 2 ^ (clq f (2 * q) + 1) = (2 * q) * 2 ^ clq f (2 * q) := by ring
      rw [heq]
      exact hrec

theorem zpow_two_split (a b : ℤ) : (2 : ℚ) ^ a * (2 : ℚ) ^ (b - a) = (2 : ℚ) ^ b := by
  rw [← zpow_add₀ (by norm_num : (2 : ℚ) ≠ 0)]
  congr 1
  omega

theorem qlog2_spec {q : ℚ} (hq : 0 < q) :
    (2 : ℚ) ^ qlog2 q ≤ q ∧ q < (2 : ℚ) ^ (qlog2 q + 1) := by
  unfold qlog2
  split_ifs with h
  · have hfl : (1 : ℤ) ≤ ⌊q⌋ := by
      rw [Int.le_floor]; exact_mod_cast h
    set m := (qfloor q).toNat with hm
    have hmz : (m : ℤ) = ⌊q⌋ := by
      rw [hm, qfloor_eq, Int.toNat_of_nonneg (by omega)]
    have hm1 : 1 ≤ m := by omega
    obtain ⟨hlo, hhi⟩ := flog2_spec m m hm1 le_rfl
    constructor
    · calc (2 : ℚ) ^ ((flog2 (qfloor q).toNat (qfloor q).toNat : ℕ) : ℤ)
          = ((2 ^ flog2 m m : ℕ) : ℚ) := by
            rw [zpow_natCast]; norm_cast
      _ ≤ (m : ℚ) := by exact_mod_cast hlo
      _ = ((⌊q⌋ : ℤ) : ℚ) := by rw [← hmz]; norm_cast
      _ ≤ q := Int.floor_le q
    · calc q < ⌊q⌋ + 1 := Int.lt_floor_add_one q
      _ = (m : ℚ) + 1 := by rw [← hmz]; norm_cast
      _ ≤ ((2 ^ (flog2 m m + 1) : ℕ) : ℚ) := by exact_mod_cast hhi
      _ = (2 : ℚ) ^ (((flog2 (qfloor q).toNat (qfloor q).toNat : ℕ) : ℤ) + 1) := by
            have hns : (((flog2 m m : ℕ) : ℤ) + 1) = ((flog2 m m + 1 : ℕ) : ℤ) := by omega
            rw [hns, zpow_natCast]
            norm_cast
  · have h1 : q < 1 := not_le.mp h
    have hnum : (1 : ℤ) ≤ q.num := by
      rwa [← Rat.num_pos, Int.lt_iff_add_one_le, zero_add] at hq
    have hden : (0 : ℚ) < (q.den : ℚ) := by exact_mod_cast q.pos
    have hfuel : 1 ≤ q * 2 ^ q.den := by
      have hq' : 1 / (q.den : ℚ) ≤ q := by
        rw [div_le_iff₀ hden, Rat.mul_den_eq_num]
        exact_mod_cast hnum
      have hdlt : (q.den : ℚ) < 2 ^ q.den := by
        exact_mod_cast Nat.lt_two_pow q.den
      have hp : (0 : ℚ) < 2 ^ q.den := by positivity
      calc (1 : ℚ) = (q.den : ℚ) * (1 / (q.den : ℚ)) := by field_simp
        _ ≤ 2 ^ q.den * (1 / (q.den : ℚ)) := by
            apply mul_le_mul_of_nonneg_right (le_of_lt hdlt)
            positivity
        _ ≤ 2 ^ q.den * q := by
            apply mul_le_mul_of_nonneg_left hq' (le_of_lt hp)
        _ = q * 2 ^ q.den := by ring
    obtain ⟨hlo, hhi⟩ := clq_spec q.den q hq (by linarith) hfuel
    set c := clq q.den q with hc
    have hcp : (0 : ℚ) < 2 ^ c := by positivity
    constructor
    · rw [zpow_neg, zpow_natCast, inv_le_iff_one_le_mul₀ hcp]
      linarith [hlo]
    · have : q * 2 ^ c < 2 := hhi
      have hgoal : q < 2 / 2 ^ c := by
        rw [lt_div_iff₀ hcp]; exact this
      calc q < 2 / 2 ^ c := hgoal
        _ = (2 : ℚ) ^ (-(c : ℤ) + 1) := by
            rw [zpow_add₀ (by norm_num : (2 : ℚ) ≠ 0), zpow_neg, zpow_natCast]
            rw [zpow_one]
            rw [div_eq_mul_inv, mul_comm]

theorem qlog2_mono {p q : ℚ} (hp : 0 < p) (h : p ≤ q) : qlog2 p ≤ qlog2 q := by
  have hq : 0 < q := lt_of_lt_of_le hp h
  obtain ⟨hp1, _⟩ := qlog2_spec hp
  obtain ⟨_, hq2⟩ := qlog2_spec hq
  have hlt : (2 : ℚ) ^ qlog2 p < (2 : ℚ) ^ (qlog2 q + 1) := lt_of_le_of_lt (le_trans hp1 h) hq2
  have := (zpow_lt_zpow_iff_right₀ (by norm_num : (1 : ℚ) < 2)).mp hlt
  omega

theorem rndPos_eq (q : ℚ) : rndPos q =
    (rhe (q * (2 : ℚ) ^ (52 - qlog2 q)) : ℚ) * (2 : ℚ) ^ (qlog2 q - 52) := by
  rw [rndPos, pow2_eq, pow2_eq]

theorem rndPos_lower {q : ℚ} (hq : 0 < q) : (2 : ℚ) ^ qlog2 q ≤ rndPos q := by
  obtain ⟨h1, _⟩ := qlog2_spec hq
  have hsc : (0 : ℚ) < (2 : ℚ) ^ (52 - qlog2 q) := by positivity
  have hx : (2 : ℚ) ^ (52 : ℤ) ≤ q * (2 : ℚ) ^ (52 - qlog2 q) := by
    calc (2 : ℚ) ^ (52 : ℤ) = (2 : ℚ) ^ qlog2 q * (2 : ℚ) ^ (52 - qlog2 q) :=
          (zpow_two_split (qlog2 q) 52).symm
      _ ≤ q * (2 : ℚ) ^ (52 - qlog2 q) := by
          exact mul_le_mul_of_nonneg_right h1 (le_of_lt hsc)
  have hx' : ((4503599627370496 : ℤ) : ℚ) ≤ q * (2 : ℚ) ^ (52 - qlog2 q) := by
    calc ((4503599627370496 : ℤ) : ℚ) = (2 : ℚ) ^ (52 : ℤ) := by norm_num
      _ ≤ _ := hx
  have hfl : (4503599627370496 : ℤ) ≤ ⌊q * (2 : ℚ) ^ (52 - qlog2 q)⌋ := Int.le_floor.mpr hx'
  have hrh : (4503599627370496 : ℤ) ≤ rhe (q * (2 : ℚ) ^ (52 - qlog2 q)) :=
    le_trans hfl (floor_le_rhe _)
  rw [rndPos_eq]
  have hsc' : (0 : ℚ) < (2 : ℚ) ^ (qlog2 q - 52) := by positivity
  calc (2 : ℚ) ^ qlog2 q = (2 : ℚ) ^ (52 : ℤ) * (2 : ℚ) ^ (qlog2 q - 52) :=
        (zpow_two_split 52 (qlog2 q)).symm
    _ ≤ (rhe (q * (2 : ℚ) ^ (52 - qlog2 q)) : ℚ) * (2 : ℚ) ^ (qlog2 q - 52) := by
        apply mul_le_mul_of_nonneg_right _ (le_of_lt hsc')
        calc (2 : ℚ) ^ (52 : ℤ) = ((4503599627370496 : ℤ) : ℚ) := by norm_num
          _ ≤ _ := by exact_mod_cast hrh

theorem rndPos_upper {q : ℚ} (hq : 0 < q) : rndPos q ≤ (2 : ℚ) ^ (qlog2 q + 1) := by
  obtain ⟨_, h2⟩ := qlog2_spec hq
  have hsc : (0 : ℚ) < (2 : ℚ) ^ (52 - qlog2 q) := by positivity
  have hx : q * (2 : ℚ) ^ (52 - qlog2 q) < (2 : ℚ) ^ (53 : ℤ) := by
    calc q * (2 : ℚ) ^ (52 - qlog2 q) < (2 : ℚ) ^ (qlog2 q + 1) * (2 : ℚ) ^ (52 - qlog2 q) := by
          exact mul_lt_mul_of_pos_right h2 hsc
      _ = (2 : ℚ) ^ (53 : ℤ) := by
          rw [← zpow_add₀ (by norm_num : (2 : ℚ) ≠ 0)]
          congr 1
          omega
  have hx' : q * (2 : ℚ) ^ (52 - qlog2 q) < ((9007199254740992 : ℤ) : ℚ) := by
    calc q * (2 : ℚ) ^ (52 - qlog2 q) < (2 : ℚ) ^ (53 : ℤ) := hx
      _ = ((9007199254740992 : ℤ) : ℚ) := by norm_num
  have hfl : ⌊q * (2 : ℚ) ^ (52 - qlog2 q)⌋ < 9007199254740992 := Int.floor_lt.mpr hx'
  have hrh : rhe (q * (2 : ℚ) ^ (52 - qlog2 q)) ≤ 9007199254740992 :=
    le_trans (rhe_le_floor_add_one _) (by omega)
  rw [rndPos_eq]
  have hsc' : (0 : ℚ) < (2 : ℚ) ^ (qlog2 q - 52) := by positivity
  calc (rhe (q * (2 : ℚ) ^ (52 - qlog2 q)) : ℚ) * (2 : ℚ) ^ (qlog2 q - 52)
      ≤ ((9007199254740992 : ℤ) : ℚ) * (2 : ℚ) ^ (qlog2 q - 52) := by
        apply mul_le_mul_of_nonneg_right _ (le_of_lt hsc')
        exact_mod_cast hrh
    _ = (2 : ℚ) ^ (qlog2 q + 1) := by
        have : ((9007199254740992 : ℤ) : ℚ) = (2 : ℚ) ^ (53 : ℤ) := by norm_num
        rw [this, ← zpow_add₀ (by norm_num : (2 : ℚ) ≠ 0)]
        congr 1
        omega

theorem rndPos_pos {q : ℚ} (hq : 0 < q) : 0 < rndPos q :=
  lt_of_lt_of_le (by positivity) (rndPos_lower hq)

theorem rndPos_mono {p q : ℚ} (hp : 0 < p) (h : p ≤ q) : rndPos p ≤ rndPos q := by
  have hq : 0 < q := lt_of_lt_of_le hp h
  have he := qlog2_mono hp h
  rcases lt_or_eq_of_le he with hlt | heq
  · calc rndPos p ≤ (2 : ℚ) ^ (qlog2 p + 1) := rndPos_upper hp
      _ ≤ (2 : ℚ) ^ qlog2 q := by
          apply zpow_le_zpow_right₀ (by norm_num : (1 : ℚ) ≤ 2)
          omega
      _ ≤ rndPos q := rndPos_lower hq
  · rw [rndPos_eq, rndPos_eq, ← heq]
    have hsc : (0 : ℚ) < (2 : ℚ) ^ (52 - qlog2 p) := by positivity
    have hsc' : (0 : ℚ) ≤ (2 : ℚ) ^ (qlog2 p - 52) := by positivity
    apply mul_le_mul_of_nonneg_right _ hsc'
    exact_mod_cast rhe_mono (mul_le_mul_of_nonneg_right h (le_of_lt hsc))

theorem rnd_zero : rnd 0 = 0 := by simp [rnd]

theorem rnd_nonneg {q : ℚ} (h : 0 ≤ q) : 0 ≤ rnd q := by
  rcases eq_or_lt_of_le h with h0 | hpos
  · rw [← h0, rnd_zero]
  · rw [rnd, if_neg (by linarith), if_pos hpos]
    exact le_of_lt (rndPos_pos hpos)

theorem rnd_nonpos {q : ℚ} (h : q ≤ 0) : rnd q ≤ 0 := by
  rcases eq_or_lt_of_le h with h0 | hneg
  · rw [h0, rnd_zero]
  · rw [rnd, if_neg (by linarith), if_neg (by linarith)]
    have := rndPos_pos (by linarith : (0 : ℚ) < -q)
    linarith

theorem rnd_mono {p q : ℚ} (hp : 0 ≤ p) (h : p ≤ q) : rnd p ≤ rnd q := by
  rcases eq_or_lt_of_le hp with h0 | hpos
  · rw [← h0, rnd_zero]
    exact rnd_nonneg (le_trans hp h)
  · have hq : 0 < q := lt_of_lt_of_le hpos h
    rw [rnd, rnd, if_neg (by linarith), if_pos hpos, if_neg (by linarith), if_pos hq]
    exact rndPos_mono hpos h

theorem rnd_natCast {n : ℕ} (h : n < 2 ^ 53) : rnd (n : ℚ) = n := by
  rcases Nat.eq_zero_or_pos n with h0 | hpos
  · rw [h0]; simpa using rnd_zero
  · have hq : (0 : ℚ) < (n : ℚ) := by exact_mod_cast hpos
    rw [rnd, if_neg (by linarith), if_pos hq]
    set e := qlog2 (n : ℚ) with he
    have he52 : e ≤ 52 := by
      obtain ⟨h1, _⟩ := qlog2_spec hq
      have hlt : (2 : ℚ) ^ e < (2 : ℚ) ^ (53 : ℤ) := by
        calc (2 : ℚ) ^ e ≤ (n : ℚ) := h1
          _ < (2 : ℚ) ^ (53 : ℤ) := by
            have : ((2 ^ 53 : ℕ) : ℚ) = (2 : ℚ) ^ (53 : ℤ) := by norm_num
            rw [← this]
            exact_mod_cast h
      have := (zpow_lt_zpow_iff_right₀ (by norm_num : (1 : ℚ) < 2)).mp hlt
      omega
    have he0 : 0 < e ∨ 0 ≤ e := by
      right
      obtain ⟨_, h2⟩ := qlog2_spec hq
      by_contra hcon
      push_neg at hcon
      have he1 : e + 1 ≤ 0 := by omega
      have : (2 : ℚ) ^ (e + 1) ≤ (2 : ℚ) ^ (0 : ℤ) :=
        zpow_le_zpow_right₀ (by norm_num : (1 : ℚ) ≤ 2) he1
      rw [zpow_zero] at this
      have hn1 : (1 : ℚ) ≤ (n : ℚ) := by exact_mod_cast hpos
      linarith
    set k := (52 - e).toNat with hk
    have hkz : ((k : ℕ) : ℤ) = 52 - e := by
      rw [hk]
      apply Int.toNat_of_nonneg
      omega
    have hxint : (n : ℚ) * (2 : ℚ) ^ (52 - e) = ((n * 2 ^ k : ℕ) : ℚ) := by
      rw [← hkz, zpow_natCast]
      push_cast
      ring
    rw [rndPos_eq, ← he, hxint]
    have hrh : rhe ((n * 2 ^ k : ℕ) : ℚ) = ((n * 2 ^ k : ℕ) : ℤ) := by
      have := rhe_intCast ((n * 2 ^ k : ℕ) : ℤ)
      rwa [show (((n * 2 ^ k : ℕ) : ℤ) : ℚ) = ((n * 2 ^ k : ℕ) : ℚ) by push_cast; ring] at this
    rw [hrh]
    have hsplit : (2 : ℚ) ^ (e - 52) = ((2 : ℚ) ^ k)⁻¹ := by
      rw [show e - 52 = -((k : ℤ)) by omega, zpow_neg, zpow_natCast]
    rw [hsplit]
    push_cast
    have h2k : ((2 : ℚ) ^ k) ≠ 0 := by positivity
    field_simp

theorem rnd_one : rnd 1 = 1 := by
  have := rnd_natCast (n := 1) (by norm_num)
  simpa using this

/-!
## Embedding of the service code

Network and filesystem effects are represented by oracle parameters
(`hasProvider`, `gasTry`, `net`, builder functions) and by an event trace
listing each outbound call the code performs.
-/

/-- One outbound network operation. -/
inductive NetEvent where
  | gasRpc (chainId : ℕ)
  | tokenRpc (address : String) (chainId : ℕ)
  | providerCall (name : String)
deriving DecidableEq

/-- `format!` with a fixed number of fractional digits (`{:.N}`): the
value is rounded to `prec` decimals, ties to even, as Rust float
formatting does. -/
def fmtFixed (prec : ℕ) (q : ℚ) : String :=
  let scaled := rhe (q * ((10 ^ prec : ℕ) : ℚ))
  let m := scaled.natAbs
  let intPart := m / 10 ^ prec
  let fracPart := m % 10 ^ prec
  let sign := if scaled < 0 then "-" else ""
  if prec = 0 then sign ++ Nat.repr intPart
  else
    let digits := Nat.repr fracPart
    sign ++ Nat.repr intPart ++ "." ++
      String.mk (List.replicate (prec - digits.length) '0') ++ digits

/-- `s.parse::<u64>()` (decimal digits, value fits in 64 bits; the
plus-sign form accepted by Rust does not occur in the configs). -/
def parseU64 (s : String) : Option ℕ :=
  if s.length ≠ 0 ∧ s.data.all (fun c => c.isDigit) then
    let n := s.data.foldl (fun acc c => acc * 10 + (c.toNat - 48)) 0
    if n < 2 ^ 64 then some n else none
  else none

/-- `s.parse::<f64>()` for the decimal forms `[+-]digits[.digits][e[+-]digits]`
(the forms arising in this system): the exact decimal value rounded to
binary64. -/
def parseF64Digits (cs : List Char) : Option ℕ :=
  if cs.length ≠ 0 ∧ cs.all (fun c => c.isDigit) then
    some (cs.foldl (fun acc c => acc * 10 + (c.toNat - 48)) 0)
  else none

def parseF64Mantissa (cs : List Char) : Option ℚ :=
  match cs.splitOn '.' with
  | [intDigits] => (parseF64Digits intDigits).map (fun n => (n : ℚ))
  | [intDigits, fracDigits] =>
    if intDigits.length = 0 ∧ fracDigits.length = 0 then none
    else if (intDigits ++ fracDigits).all (fun c => c.isDigit) then
      some ((((intDigits ++ fracDigits).foldl
        (fun acc c => acc * 10 + (c.toNat - 48)) 0 : ℕ) : ℚ) /
        ((10 ^ fracDigits.length : ℕ) : ℚ))
    else none
  | _ => none

def parseF64Signed (cs : List Char) (core : List Char → Option ℚ) : Option ℚ :=
  match cs with
  | '-' :: rest => (core rest).map Neg.neg
  | '+' :: rest => core rest
  | _ => core cs

def parseF64Exp (cs : List Char) : Option ℤ :=
  (parseF64Signed cs (fun ds => (parseF64Digits ds).map (fun n => (n : ℚ)))).bind
    (fun q => if q.den = 1 then some q.num else none)

def parseF64 (s : String) : Option ℚ :=
  parseF64Signed s.data (fun cs0 =>
    let cs := cs0.map (fun c => if c == 'E' then 'e' else c)
    match cs.splitOn 'e' with
    | [mant] => (parseF64Mantissa mant).map rnd
    | [mant, ex] =>
      (parseF64Mantissa mant).bind (fun q =>
        (parseF64Exp ex).map (fun z =>
          rnd (q * ((10 ^ z.toNat : ℕ) : ℚ) / ((10 ^ (-z).toNat : ℕ) : ℚ))))
    | _ => none)

/-- Association-list lookup for the `DashMap`/`HashMap`/serde-map models. -/
def dmGet (m : List (String × Json)) (k : String) : Option Json :=
  (m.find? (fun p => p.1 == k)).map Prod.snd

/-- Map insert (replaces an existing binding, else appends). -/
def dmInsert (m : List (String × Json)) (k : String) (v : Json) : List (String × Json) :=
  if (m.find? (fun p => p.1 == k)).isSome
  then m.map (fun p => if p.1 == k then (k, v) else p)
  else m ++ [(k, v)]

/-- `serde_json::Map` indexing (`map[key]`): Rust panics when the key is
absent, so the `none` case of this lookup marks a panic site. -/
def mapIdx (fs : List (String × Json)) (k : String) : Option Json :=
  (fs.find? (fun p => p.1 == k)).map Prod.snd

/-!
### `utils::fetch_gas_price`
-/

/-- The gwei string: `format!("{:.9}", wei as f64 / 1e9)` (`as_u64`
panics for values at or above `2^64`, which do not occur). -/
def fmtGwei (wei : ℕ) : String :=
  fmtFixed 9 (rnd (rnd (wei : ℚ) / 1000000000))

/-- The retry loop of `fetch_gas_price`: up to 10 attempts; each attempt
that reaches `get_gas_price` is one RPC event; total failure and an empty
provider pool fall back to `("0", "0")`. -/
def fetchGasPriceLoop (chainId : ℕ) (hasProvider : Bool) (gasTry : ℕ → Option ℕ) :
    ℕ → ℕ → (String × String) × List NetEvent
  | _, 0 => (("0", "0"), [])
  | att, f + 1 =>
    if hasProvider then
      match gasTry att with
      | some w => ((Nat.repr w, fmtGwei w), [NetEvent.gasRpc chainId])
      | none =>
        let r := fetchGasPriceLoop chainId hasProvider gasTry (att + 1) f
        (r.1, NetEvent.gasRpc chainId :: r.2)
    else (("0", "0"), [])

/-- `fetch_gas_price(chain_id, state)`: always returns `Ok`; the caller's
`map_err` branch is dead code. -/
def fetchGasPrice (chainId : ℕ) (hasProvider : Bool) (gasTry : ℕ → Option ℕ) :
    (String × String) × List NetEvent :=
  fetchGasPriceLoop chainId hasProvider gasTry 0 10

/-!
### `utils::filter_dapps`
-/

/-- `create_chain_name_to_id_map`. -/
def createChainNameToIdMap (rpcConfig : Json) : List (String × ℕ) :=
  match rpcConfig.asObj with
  | some entries =>
    entries.foldl (fun m p =>
      match (p.2.get? "name").bind Json.asStr, parseU64 p.1 with
      | some chainName, some idNum =>
        if (m.find? (fun q => q.1 == chainName)).isSome
        then m.map (fun q => if q.1 == chainName then (chainName, idNum) else q)
        else m ++ [(chainName, idNum)]
      | _, _ => m) []
  | none => []

/-- `resolve_chain_ids`. -/
def resolveChainIds (ids : List Json) (m : List (String × ℕ)) : List ℕ :=
  ids.filterMap (fun idOrName =>
    match idOrName.asU64 with
    | some chainId => some chainId
    | none =>
      match idOrName.asStr with
      | some chainName => (m.find? (fun q => q.1 == chainName)).map Prod.snd
      | none => none)

/-- The token-support test of `filter_dapps` (lines 57-68): anexact,
case-sensitive comparison of each entry with the requested address, the
wildcard `"all"`, or the provider's `ethAddress` alias (also exact). -/
def dappSupportsToken (config : Json) (tokenAddress : String) : Bool :=
  match (config.get? "tokens").bind Json.asArr with
  | some tokens =>
    tokens.any (fun token =>
      token.asStr == some "all" || token.asStr == some tokenAddress ||
      ((config.get? "ethAddress").map (fun v => v.asStr == some tokenAddress)).getD false)
  | none => false

/-- Chain acceptance for one direction (`fromChainIds` / `toChainIds`). -/
def dappSupportsChain (config : Json) (key : String) (chainId : ℕ)
    (m : List (String × ℕ)) : Bool :=
  let resolved := (((config.get? key).bind Json.asArr).map
    (fun ids => resolveChainIds ids m)).getD []
  let anyChain := (((config.get? key).bind Json.asArr).map
    (fun ids => ids.any (fun id => id.asStr == some "all"))).getD false
  anyChain || resolved.contains chainId

/-- The per-dapp filter body of `filter_dapps`. -/
def passesFilter (name : String) (config : Json) (tokenAddress : String)
    (fromChainId toChainId : ℕ) (m : List (String × ℕ)) : Option String :=
  let enabled := ((config.get? "enabled").bind Json.asBool).getD false
  if ¬ enabled then none
  else
    let supportsToken := dappSupportsToken config tokenAddress
    let supportsFrom := dappSupportsChain config "fromChainIds" fromChainId m
    let supportsTo := dappSupportsChain config "toChainIds" toChainId m
    match (config.get? "bridge").bind Json.asBool with
    | some true => if supportsToken && supportsFrom && supportsTo then some name else none
    | some false =>
      if supportsToken && supportsFrom && supportsTo && (fromChainId == toChainId)
      then some name else none
    | none => if supportsToken && supportsFrom && supportsTo then some name else none

/-- `filter_dapps` (`dapp_config.as_object().unwrap()` panics on a
non-object config; configs are always objects). -/
def filterDapps (tokenAddress : String) (fromChainId toChainId : ℕ)
    (dappConfig rpcConfig : Json) : List String :=
  let m := createChainNameToIdMap rpcConfig
  match dappConfig.asObj with
  | some entries =>
    entries.filterMap (fun p => passesFilter p.1 p.2 tokenAddress fromChainId toChainId m)
  | none => []

/-!
### `utils::fetch_token_details`
-/

/-- ASCII lower-casing of one character; agrees with Rust's
`to_lowercase` on the ASCII strings (addresses) it is applied to. -/
def charLower (c : Char) : Char :=
  if 'A' ≤ c ∧ c ≤ 'Z' then Char.ofNat (c.toNat + 32) else c

/-- `str::to_lowercase` (ASCII range). -/
def strLower (s : String) : String := String.mk (s.data.map charLower)

/-- Strip an optional `0x` prefix, as hex parsers do. -/
def hexBody (s : String) : List Char :=
  match s.data with
  | '0' :: 'x' :: rest => rest
  | l => l

/-- The token record deserialized from the cache or built from a network
read (`TokenInfo` in the source). -/
structure TokenInfo where
  address : String
  chainId : ℕ
  symbol : String
  decimals : ℕ
  name : String
  coinKey : String
  logoURI : String
  priceUSD : Option ℚ
deriving DecidableEq

/-- The custom `priceUSD` deserializer: strings are parsed as `f64`
(a parse failure fails the whole deserialization, hence the outer
`Option`), numbers pass through, anything else becomes `None`. -/
def parsePriceUSD (v : Json) : Option (Option ℚ) :=
  match v with
  | .str s => (parseF64 s).map some
  | .num q => some (some q)
  | _ => some none

/-- `serde_json::from_value::<TokenInfo>`: every field is required
(`priceUSD` has a custom deserializer and no default, so a missing field
is an error); `decimals` must fit in `u8`. -/
def parseTokenInfo (v : Json) : Option TokenInfo :=
  match (v.get? "address").bind Json.asStr, (v.get? "chainId").bind Json.asU64,
      (v.get? "symbol").bind Json.asStr, (v.get? "decimals").bind Json.asU64,
      (v.get? "name").bind Json.asStr, (v.get? "coinKey").bind Json.asStr,
      (v.get? "logoURI").bind Json.asStr, (v.get? "priceUSD").bind parsePriceUSD with
  | some address, some chainId, some symbol, some decimals, some name, some coinKey,
      some logoURI, some priceUSD =>
    if decimals < 256 then
      some ⟨address, chainId, symbol, decimals, name, coinKey, logoURI, priceUSD⟩
    else none
  | _, _, _, _, _, _, _, _ => none

/-- `serde_json::to_value` of a `TokenInfo` (field order as declared;
`None` serializes as `null`). -/
def tokenInfoJson (t : TokenInfo) : Json :=
  .obj [("address", .str t.address), ("chainId", .num t.chainId),
    ("symbol", .str t.symbol), ("decimals", .num t.decimals),
    ("name", .str t.name), ("coinKey", .str t.coinKey),
    ("logoURI", .str t.logoURI),
    ("priceUSD", match t.priceUSD with | some p => .num p | none => .null)]

/-- `normalize_token_address`: both native-asset sentinels collapse to the
zero address; everything is lower-cased. -/
def normalizeTokenAddress (tokenAddress : String) : String :=
  if strLower tokenAddress == "0xeeeeeeeeeeeeeeeeeeeeeeeeeeeeeeeeeeeeeeee"
  then "0x0000000000000000000000000000000000000000"
  else strLower tokenAddress

/-- `H160::from_str`: 40 hex digits, optional `0x` prefix. -/
def isH160 (s : String) : Bool :=
  let body := hexBody s
  body.length == 40 && body.all (fun c => c.isDigit || ('a' ≤ c && c ≤ 'f') || ('A' ≤ c && c ≤ 'F'))

/-- One lookup of `find_tokens_in_json`: inside the passed value's
`"tokens"` field, under the decimal string of `chain_id`, find an entry
whose `address` matches case-insensitively. -/
def findTokenInJson (tokensVal : Json) (chainId : ℕ) (address : String) : Option Json :=
  (((tokensVal.get? "tokens").bind (fun t => t.get? (Nat.repr chainId))).bind
    Json.asArr).bind (fun arr =>
      arr.find? (fun tok =>
        (((tok.idx "address").asStr).map
          (fun a => strLower a == strLower address)).getD false))

/-- `find_tokens_in_json`. -/
def findTokensInJson (tokensVal : Json) (chainId : ℕ) (normalized : List String) :
    List (Option Json) :=
  normalized.map (findTokenInJson tokensVal chainId)

/-- The cache value consulted by `fetch_token_details`:
`state.tokens.get("tokens").or_else(|| state.tokens.get("new_tokens"))`. -/
def cacheSource (tokens : List (String × Json)) : Option Json :=
  (dmGet tokens "tokens").orElse (fun _ => dmGet tokens "new_tokens")

/-- The cache outcome for a single (normalized) address, looked up under
the given chain id. -/
def cacheHit (tokens : List (String × Json)) (chainId : ℕ) (address : String) :
    Option Json :=
  match cacheSource tokens with
  | some tv => findTokenInJson tv chainId address
  | none => none

/-- The cache-hit parsing pass of `fetch_token_details` (first loop): each
hit must deserialize, the first failure aborts with an error. -/
def parseCachePhase : List (Option Json) → Except String (List (Option TokenInfo))
  | [] => .ok []
  | none :: rest =>
    match parseCachePhase rest with
    | .ok l => .ok (none :: l)
    | .error e => .error e
  | some v :: rest =>
    match parseTokenInfo v with
    | some t =>
      match parseCachePhase rest with
      | .ok l => .ok (some t :: l)
      | .error e => .error e
    | none => .error "Failed to parse token info from cache"

/-- `fetch_token_from_network`: provider selection, address parse, then
the on-chain `symbol()`/`decimals()` reads (one trace event; a read
failure still performed the call). -/
def fetchTokenFromNetwork (tokenAddress : String) (chainId : ℕ)
    (hasProvider : ℕ → Bool) (net : String → ℕ → Option (String × ℕ)) :
    Except String TokenInfo × List NetEvent :=
  if ¬ hasProvider chainId then
    (.error ("No provider available for chain ID: " ++ Nat.repr chainId), [])
  else if ¬ isH160 tokenAddress then
    (.error "Invalid address", [])
  else
    match net tokenAddress chainId with
    | some sd =>
      (.ok ⟨tokenAddress, chainId, sd.1, sd.2, sd.1, sd.1, "", none⟩,
        [NetEvent.tokenRpc tokenAddress chainId])
    | none => (.error "Failed to fetch symbol", [NetEvent.tokenRpc tokenAddress chainId])

/-- `save_token_to_new_tokens`: pushes the serialized token into
`state.tokens["new_tokens"][chain_id]` (an object mapping the decimal
chain id to an array).  The follow-up write of `new_tokens.json` is a
filesystem effect outside this model. -/
def saveTokenToNewTokens (t : TokenInfo) (tokens : List (String × Json)) :
    List (String × Json) :=
  let newTokens := ((dmGet tokens "new_tokens").bind Json.asObj).getD []
  let chainKey := Nat.repr t.chainId
  let ensured :=
    if (newTokens.find? (fun p => p.1 == chainKey)).isSome then newTokens
    else newTokens ++ [(chainKey, Json.arr [])]
  let pushed := ensured.map (fun p =>
    if p.1 == chainKey then
      (p.1, match p.2 with
            | .arr xs => Json.arr (xs ++ [tokenInfoJson t])
            | w => w)
    else p)
  dmInsert tokens "new_tokens" (.obj pushed)

/-- The network fallback pass of `fetch_token_details` (second loop):
every entry still missing is fetched with its own pair's chain id; each
success is written back through `save_token_to_new_tokens`; the first
failure aborts the whole resolution. -/
def networkPhase (hasProvider : ℕ → Bool) (net : String → ℕ → Option (String × ℕ)) :
    List ((String × ℕ) × String × Option TokenInfo) → List (String × Json) →
    Except String (List (Option TokenInfo)) × List (String × Json) × List NetEvent
  | [], tokens => (.ok [], tokens, [])
  | (_, _, some t) :: rest, tokens =>
    let r := networkPhase hasProvider net rest tokens
    (match r.1 with
     | .ok l => .ok (some t :: l)
     | .error e => .error e, r.2.1, r.2.2)
  | (pair, normAddr, none) :: rest, tokens =>
    match fetchTokenFromNetwork normAddr pair.2 hasProvider net with
    | (.ok t, ev) =>
      let tokens' := saveTokenToNewTokens t tokens
      let r := networkPhase hasProvider net rest tokens'
      (match r.1 with
       | .ok l => .ok (some t :: l)
       | .error e => .error e, r.2.1, ev ++ r.2.2)
    | (.error e, ev) =>
      (.error ("Failed to fetch token from network: " ++ e), tokens, ev)

/-- Result of `fetch_token_details`: the per-pair outcomes, the updated
`state.tokens` map and the trace of network calls. -/
structure TokenFetchOut where
  res : Except String (List (Option TokenInfo))
  tokens : List (String × Json)
  trace : List NetEvent

/-- `fetch_token_details` (lines 69-123): the single cache lookup uses the
chain id of the **first** pair for every address; only the network
fallback uses each pair's own chain id.  An empty input panics at
`tokens_with_chain_ids[0]`. -/
def fetchTokenDetails (pairs : List (String × ℕ)) (tokens : List (String × Json))
    (hasProvider : ℕ → Bool) (net : String → ℕ → Option (String × ℕ)) : TokenFetchOut :=
  match pairs with
  | [] => ⟨.error "panic: index out of bounds", tokens, []⟩
  | first :: _ =>
    let normalized := pairs.map (fun p => normalizeTokenAddress p.1)
    let chainId := first.2
    let found :=
      match cacheSource tokens with
      | some tv => findTokensInJson tv chainId normalized
      | none => List.replicate pairs.length none
    match parseCachePhase found with
    | .error e => ⟨.error e, tokens, []⟩
    | .ok parsed =>
      let r := networkPhase hasProvider net (pairs.zip (normalized.zip parsed)) tokens
      ⟨r.1, r.2.1, r.2.2⟩

/-!
### `utils::format_swap_details`
-/

/-- A failing outcome of the normalizer: a returned `Err(String)`, or a
Rust panic (map indexing with a missing key, `Option::unwrap` on `None`)
that aborts the whole aggregation task. -/
inductive FmtErr where
  | err (e : String)
  | panicked (msg : String)
deriving DecidableEq

/-- serde-map indexing inside the normalizer: panics when absent. -/
def mreq (fs : List (String × Json)) (k : String) : Except FmtErr Json :=
  match mapIdx fs k with
  | some v => .ok v
  | none => .error (.panicked "no entry found for key")

/-- `ok_or` on an `Option`, with the source's error message. -/
def oreq {α : Type} (v : Option α) (e : String) : Except FmtErr α :=
  match v with
  | some a => .ok a
  | none => .error (.err e)

/-- `Bytes::from_str`: even-length hex digits, optional `0x` prefix. -/
def isHexData (s : String) : Bool :=
  let body := hexBody s
  body.length % 2 == 0 &&
    body.all (fun c => c.isDigit || ('a' ≤ c && c ≤ 'f') || ('A' ≤ c && c ≤ 'F'))

/-- The `"quote"` placeholder marker test
(`transaction.as_object().unwrap().values().any(|v| v.as_str() == Some("quote"))`). -/
def txHasQuoteMarker (fs : List (String × Json)) : Bool :=
  fs.any (fun p => p.2.asStr == some "quote")

/-- `estimate_gas_limit`: quote placeholders skip estimation; provider
selection, address and amount parsing may fail with `Err`; an RPC error
from the estimator itself is swallowed into `Ok(None)`.  The RPC call is
a network effect of the external gas-estimator collaborator. -/
def estimateGasLimit (chainId : ℕ) (transaction : Json) (hasProvider : ℕ → Bool)
    (estOracle : Option ℕ) : Except FmtErr (Option ℕ) := do
  let txObj ←
    match transaction.asObj with
    | some fs => Except.ok fs
    | none => Except.error (FmtErr.panicked "called Option::unwrap on a None value")
  if txHasQuoteMarker txObj then pure none
  else if ¬ hasProvider chainId then Except.error (.err "No provider available")
  else if ¬ isH160 ((transaction.idx "from").asStr.getD "") then
    Except.error (.err "Invalid from address")
  else if ¬ isH160 ((transaction.idx "to").asStr.getD "") then
    Except.error (.err "Invalid to address")
  else if (parseDecNat ((transaction.idx "value").asStr.getD "0")).isNone then
    Except.error (.err "Invalid value")
  else if ¬ isHexData ((transaction.idx "data").asStr.getD "0x") then
    Except.error (.err "Invalid data")
  else if (parseDecNat ((transaction.idx "gas").asStr.getD "0")).isNone then
    Except.error (.err "Invalid gas")
  else if (parseDecNat ((transaction.idx "gasPrice").asStr.getD "0")).isNone then
    Except.error (.err "Invalid gas price")
  else
    match estOracle with
    | some g => pure (some g)
    | none => pure none

/-- Line 97: `options["slippage"].as_f64().unwrap_or(1.0) / 100.0`
applied to the value found under `slippage` (the map indexing itself
panics when the key is absent, see `mreq`). -/
def slippageFactor (slippageVal : Json) : ℚ :=
  rnd ((slippageVal.asF64.getD 1) / 100)

/-- `10f64.powi(n)`: exact for `n ≤ 22`, which covers ERC-20 decimals. -/
def pow10F (n : ℕ) : ℚ := rnd ((10 ^ n : ℕ) : ℚ)

/-- `as u128` on a float: saturating conversion. -/
def clampU128 (z : ℤ) : ℕ := if z < 0 then 0 else min z.toNat (2 ^ 128 - 1)

/-- Lines 114-122: the `toAmountMin` computation.  `to_amount_value` is
the parsed output amount (`unwrap_or_default`); with the provider's
no-slippage flag the value passes through unchanged; otherwise, unless
the amount is the `"none"` sentinel, it is scaled by `1 - slippage` in
binary64 arithmetic and floored (`to_amount_value.as_u128()` panics for
values at or above `2^128`, which is not modelled). -/
def toAmountMinU128 (noSlip : Bool) (toAmountStr : Option String) (slippage : ℚ) : ℕ :=
  let toAmountValue := (parseDecNat (toAmountStr.getD "0")).getD 0
  if noSlip then toAmountValue
  else if toAmountStr ≠ some "none" then
    clampU128 (qfloor (rnd (rnd (toAmountValue : ℚ) * rnd (1 - slippage))))
  else toAmountValue

/-- `format_swap_details`.  `showF64` stands for Rust's shortest
round-trip `f64` `Display`, used only for the token `priceUSD` strings;
`hasProvider`/`estOracle` are the gas-estimation collaborator. -/
def formatSwapDetails (tool : String) (params transaction toAmount approvalAddress gasData : Json)
    (gasEstimate : Option String) (additionalFee : Option Json) (dappOptions : Option Json)
    (hasProvider : ℕ → Bool) (estOracle : Option ℕ) (showF64 : ℚ → String) :
    Except FmtErr Json := do
  let fromChainId ← oreq (params.idx "fromChainId").asU64 "Invalid fromChainId"
  let amount ← oreq (params.idx "amount").asStr "Invalid amount"
  let toAddress ← oreq (params.idx "toAddress").asStr "Invalid toAddress"
  let toChainId := (params.idx "toChainId").asU64.getD fromChainId
  let options ← oreq (params.idx "options").asObj "Invalid options"
  let fromAddress ← oreq (params.idx "fromAddress").asStr "Invalid fromAddress"
  let txObj ←
    match transaction.asObj with
    | some fs => Except.ok fs
    | none => Except.error (FmtErr.panicked "called Option::unwrap on a None value")
  let needsGasEstimate := gasEstimate.isNone && ! txHasQuoteMarker txObj
  let estPair ←
    if needsGasEstimate then
      match estimateGasLimit fromChainId transaction hasProvider estOracle with
      | .ok (some gas) =>
        let adjusted := gas * 3 / 2
        pure (some adjusted, transaction.set "gas" (Json.num adjusted))
      | .ok none => pure ((none : Option ℕ), transaction)
      | .error (.err _) => pure ((none : Option ℕ), transaction)
      | .error (.panicked m) => Except.error (FmtErr.panicked m)
    else
      pure (gasEstimate.map (fun g => (parseDecNat g).getD 0), transaction)
  let estimatedGas := estPair.1
  let tx := estPair.2
  if needsGasEstimate ∧ estimatedGas = none then
    pure Json.null
  else do
    let fromTok ← oreq (params.idx "fromTokenDetails").asObj "Missing fromTokenDetails"
    let toTok ← oreq (params.idx "toTokenDetails").asObj "Missing toTokenDetails"
    let nativeTok ← oreq (params.idx "nativeTokenDetails").asObj "Missing nativeTokenDetails"
    let slippageVal ← mreq options "slippage"
    let slippage := slippageFactor slippageVal
    let fromAmount ← oreq (parseDecNat amount) "Invalid amount: parse failure"
    let gasPriceWei ← oreq (parseDecNat ((gasData.at 0).asStr.getD "0")) "Invalid gas price"
    let gasGwei := (gasData.at 1).asStr.getD "none"
    let gasEstimated := (estimatedGas.map Nat.repr).getD "0"
    let swapCostEth :=
      match estimatedGas with
      | none => "none"
      | some g => fmtFixed 8 (rnd (rnd ((g * gasPriceWei : ℕ) : ℚ) / 1000000000000000000))
    let fromPrice ← mreq fromTok "priceUSD"
    let fromAmountUSD ←
      match fromPrice.asF64 with
      | some price => do
        let decJ ← mreq fromTok "decimals"
        pure (fmtFixed 2 (rnd (rnd (rnd (fromAmount : ℚ) / pow10F (decJ.asU64.getD 18)) * price)))
      | none => pure "none"
    let toAmountValue := (parseDecNat ((toAmount.asStr).getD "0")).getD 0
    let noSlip := (dappOptions.bind (fun o => (o.idx "noSlippage").asBool)).getD false
    let toAmountMin := toAmountMinU128 noSlip toAmount.asStr slippage
    let swapCostUSD ←
      if swapCostEth = "none" then pure "none"
      else do
        let np ← mreq nativeTok "priceUSD"
        if np.isNull then pure "none"
        else pure (fmtFixed 3 (rnd (((parseF64 swapCostEth).getD 0) * (np.asF64.getD 0))))
    let toPrice ← mreq toTok "priceUSD"
    let toAmountUSD ←
      match toPrice.asF64 with
      | some price => do
        let decJ ← mreq toTok "decimals"
        pure (fmtFixed 2 (rnd (rnd (rnd (toAmountValue : ℚ) / pow10F (decJ.asU64.getD 18)) * price)))
      | none => pure "none"
    let fA ← mreq fromTok "address"
    let fS ← mreq fromTok "symbol"
    let fD ← mreq fromTok "decimals"
    let fN ← mreq fromTok "name"
    let fL ← mreq fromTok "logoURI"
    let tA ← mreq toTok "address"
    let tS ← mreq toTok "symbol"
    let tD ← mreq toTok "decimals"
    let tN ← mreq toTok "name"
    let tC ← mreq toTok "coinKey"
    let tL ← mreq toTok "logoURI"
    let fromTokenOut := Json.obj [("address", fA), ("chainId", .num fromChainId),
      ("symbol", fS), ("decimals", fD), ("name", fN), ("logoURI", fL),
      ("priceUSD", .str ((fromPrice.asF64.map showF64).getD "none"))]
    let toTokenOut := Json.obj [("address", tA), ("chainId", .num toChainId),
      ("symbol", tS), ("decimals", tD), ("name", tN), ("coinKey", tC), ("logoURI", tL),
      ("priceUSD", .str ((toPrice.asF64.map showF64).getD "none"))]
    let txOut := Json.obj [("value", .str ((tx.idx "value").asStr.getD "0")),
      ("to", .str ((tx.idx "to").asStr.getD "none")),
      ("from", .str ((tx.idx "from").asStr.getD "none")),
      ("data", .str ((tx.idx "data").asStr.getD "none")),
      ("chainId", .num ((tx.idx "chainId").asU64.getD fromChainId)),
      ("gasPrice", .str (Nat.repr gasPriceWei)),
      ("gas", .str gasEstimated)]
    let result := Json.obj [("tool", .str tool), ("fromChainId", .num fromChainId),
      ("fromAmountUSD", .str fromAmountUSD), ("fromAmount", .str (Nat.repr fromAmount)),
      ("fromAddress", .str fromAddress), ("toAmount", .str (Nat.repr toAmountValue)),
      ("toAmountMin", .str (Nat.repr toAmountMin)), ("swapCostETH", .str swapCostEth),
      ("swapCostUSD", .str swapCostUSD), ("toChainId", .num toChainId),
      ("toAmountUSD", .str toAmountUSD), ("fromToken", fromTokenOut),
      ("toToken", toTokenOut), ("options", .obj options), ("toAddress", .str toAddress),
      ("approvalAddress", .str (approvalAddress.asStr.getD "none")),
      ("gasGwei", .str gasGwei), ("transaction", txOut)]
    match additionalFee with
    | some fee =>
      pure (result.set "additionalFee"
        (Json.obj [("symbol", fS), ("decimals", fD), ("amount", fee)]))
    | none => pure result

/-!
### `services::quote_router` and `services::quote_service`
-/

/-- Outcome of one provider quote builder under its 30-second deadline:
a value, a raised error, or an elapsed deadline. -/
inductive BuilderOutcome where
  | ok (v : Json)
  | err (e : String)
  | timeout

/-- `validate_response_format`. -/
def validateResponseFormat (v : Json) : Bool :=
  (v.get? "tool").isSome && (v.get? "fromChainId").isSome &&
  (v.get? "fromAmount").isSome && (v.get? "toAmount").isSome &&
  (v.get? "fromToken").isSome && (v.get? "toToken").isSome &&
  (v.get? "transaction").isSome

/-- Whether a provider outcome survives (returned in time, no error,
passes shape validation). -/
def outcomeValid : BuilderOutcome → Bool
  | .ok v => validateResponseFormat v
  | _ => false

/-- The fan-out/fan-in of `route_quote` (lines 110-144): each candidate is
invoked (one `providerCall` event each, all waited for), failures and
invalid shapes are dropped, survivors are collected in candidate order as
`{"name": …, "data": …}` values. -/
def runServices : List (String × (Json → BuilderOutcome)) → Json →
    List Json × List NetEvent
  | [], _ => ([], [])
  | (name, service) :: rest, extended =>
    let r := runServices rest extended
    match service extended with
    | .ok v =>
      if validateResponseFormat v
      then ((Json.obj [("name", .str name), ("data", v)]) :: r.1,
        NetEvent.providerCall name :: r.2)
      else (r.1, NetEvent.providerCall name :: r.2)
    | _ => (r.1, NetEvent.providerCall name :: r.2)

/-- The sort key: `entry["data"]["toAmount"].as_str().unwrap_or("0")`. -/
def entryKey (a : Json) : String := ((a.idx "data").idx "toAmount").asStr.getD "0"

/-- Lexicographic comparison of scalar values: on UTF-8 strings this is
exactly Rust's byte-wise `str` ordering (UTF-8 byte order coincides with
scalar-value order). -/
def strListLe : List Char → List Char → Bool
  | [], _ => true
  | _ :: _, [] => false
  | a :: as, b :: bs =>
    if a.toNat < b.toNat then true
    else if b.toNat < a.toNat then false
    else strListLe as bs

/-- `a ≤ b` in Rust's `str` ordering. -/
def rustStrLe (a b : String) : Bool := strListLe a.data b.data

theorem strListLe_total : ∀ as bs : List Char, strListLe as bs = true ∨ strListLe bs as = true
  | [], _ => Or.inl rfl
  | _ :: _, [] => Or.inr rfl
  | a :: as, b :: bs => by
    simp only [strListLe]
    rcases Nat.lt_trichotomy a.toNat b.toNat with h | h | h
    · left; simp [h]
    · have h' : ¬ a.toNat < b.toNat := by omega
      have h'' : ¬ b.toNat < a.toNat := by omega
      simpa [h', h''] using strListLe_total as bs
    · right; simp [h]

theorem strListLe_trans : ∀ as bs cs : List Char,
    strListLe as bs = true → strListLe bs cs = true → strListLe as cs = true
  | [], _, _ => by intro h1 h2; rfl
  | _ :: _, [], _ => by intro h1 h2; simp [strListLe] at h1
  | _ :: _, _ :: _, [] => by intro h1 h2; simp [strListLe] at h2
  | a :: as, b :: bs, c :: cs => by
    simp only [strListLe]
    intro h1 h2
    split_ifs with hac hca
    · rfl
    · exfalso
      by_cases hab : a.toNat < b.toNat <;> by_cases hbc : b.toNat < c.toNat <;>
        simp [hab, hbc] at h1 h2 <;> omega
    · have hab : ¬ a.toNat < b.toNat := by
        by_contra hab
        by_cases hbc : b.toNat < c.toNat <;> simp [hab, hbc] at h1 h2 <;> omega
      have hbc : ¬ b.toNat < c.toNat := by
        by_contra hbc
        simp [hab, hbc] at h1 h2
        omega
      have hba : ¬ b.toNat < a.toNat := by
        by_contra hba
        simp [hab, hba] at h1
      have hcb : ¬ c.toNat < b.toNat := by
        by_contra hcb
        simp [hbc, hcb] at h2
      simp [hab, hba] at h1
      simp [hbc, hcb] at h2
      exact strListLe_trans as bs cs h1 h2

/-- The comparator passed to `sort_by`: ascending in
`compare(b.key, a.key)`, i.e. descending byte-wise string order on the
keys. -/
def quoteGe (a b : Json) : Prop := rustStrLe (entryKey b) (entryKey a) = true

instance : DecidableRel quoteGe :=
  fun a b => inferInstanceAs (Decidable (rustStrLe (entryKey b) (entryKey a) = true))

instance : IsTotal Json quoteGe :=
  ⟨fun a b => strListLe_total (entryKey b).data (entryKey a).data⟩

instance : IsTrans Json quoteGe :=
  ⟨fun _ _ _ h1 h2 => strListLe_trans _ _ _ h2 h1⟩

/-- Lines 154-164: ids are assigned from the **collection order**
(`enumerate`, 1-based) before any sorting happens. -/
def structureResults (results : List Json) : List Json :=
  results.enum.map (fun p =>
    Json.obj [("id", .num ((p.1 + 1 : ℕ) : ℚ)), ("name", p.2.idx "name"),
      ("data", p.2.idx "data")])

/-- Lines 166-170: `Vec::sort_by` with the comparator above.  Rust's sort
is stable, and the output of a stable sort is uniquely determined by the
comparator (the sorted permutation keeping comparator-equal elements in
input order); insertion sort with a tie-accepting relation computes that
same list structurally. -/
def sortQuotes (entries : List Json) : List Json := List.insertionSort quoteGe entries

/-- Lines 147-175: failure envelope on an empty survivor set, otherwise
the success envelope around the structured, sorted survivors. -/
def aggregateResults (results : List Json) : Json :=
  if results.isEmpty then
    Json.obj [("success", .bool false), ("message", .str "No valid quotes found.")]
  else
    Json.obj [("success", .bool true), ("data", .arr (sortQuotes (structureResults results)))]

/-- The application state seen by the router: loaded configs, the shared
token map, and the network oracles. -/
structure AppStateM where
  dappConfig : Json
  rpcConfig : Json
  tokens : List (String × Json)
  hasProvider : ℕ → Bool
  gasTry : ℕ → Option ℕ
  net : String → ℕ → Option (String × ℕ)

/-- Result of one `route_quote` run. -/
structure RouteOut where
  res : Except String Json
  tokens : List (String × Json)
  trace : List NetEvent

def zeroAddress : String := "0x0000000000000000000000000000000000000000"

def optTokenJson : Option TokenInfo → Json
  | some t => tokenInfoJson t
  | none => .null

/-- Lines 71-100: the candidate services.  `builders` models the static
`AVAILABLE_SERVICES` map (name to quote-builder). -/
def servicesToRun (params : Json) (available : List String)
    (builders : List (String × (Json → BuilderOutcome))) :
    List (String × (Json → BuilderOutcome)) :=
  let allAvailable := available.filterMap (fun d =>
    (builders.find? (fun b => b.1 == d)).map (fun b => (d, b.2)))
  match params.get? "options" with
  | some options =>
    match (options.get? "dapps").bind Json.asArr with
    | some dapps =>
      if dapps.isEmpty then allAvailable
      else (dapps.filterMap Json.asStr).filterMap (fun d =>
        if available.contains d then
          (builders.find? (fun b => b.1 == d)).map (fun b => (d, b.2))
        else none)
    | none => allAvailable
  | none => allAvailable

/-- `route_quote`.  The gas price is fetched before eligibility filtering;
`fetch_gas_price` never returns `Err`, so the corresponding `map_err`
branch is dead code. -/
def routeQuote (params : Json) (st : AppStateM)
    (builders : List (String × (Json → BuilderOutcome))) : RouteOut :=
  match (params.idx "fromChainId").asU64 with
  | none => ⟨.error "Invalid fromChainId", st.tokens, []⟩
  | some fromChainId =>
    let toChainId := (params.idx "toChainId").asU64.getD fromChainId
    match (params.idx "fromTokenAddress").asStr with
    | none => ⟨.error "Invalid fromTokenAddress", st.tokens, []⟩
    | some fromTokenAddress =>
      match (params.idx "toTokenAddress").asStr with
      | none => ⟨.error "Invalid toTokenAddress", st.tokens, []⟩
      | some toTokenAddress =>
        let gp := fetchGasPrice fromChainId (st.hasProvider fromChainId) st.gasTry
        let extended1 := (params.set "gasPrices"
          (.arr [.str gp.1.1, .str gp.1.2])).set "quoteOnly" (.bool true)
        let available := filterDapps fromTokenAddress fromChainId toChainId
          st.dappConfig st.rpcConfig
        if available.isEmpty then
          ⟨.ok (Json.obj [("success", .bool false), ("message", .str "No dApps available")]),
            st.tokens, gp.2⟩
        else
          let tf := fetchTokenDetails
            [(fromTokenAddress, fromChainId), (toTokenAddress, toChainId),
              (zeroAddress, fromChainId)] st.tokens st.hasProvider st.net
          match tf.res with
          | .error e =>
            ⟨.error ("Failed to fetch token details: " ++ e), tf.tokens, gp.2 ++ tf.trace⟩
          | .ok tokenDetails =>
            let extended := ((extended1.set "fromTokenDetails"
              (optTokenJson (tokenDetails.getD 0 none))).set "toTokenDetails"
              (optTokenJson (tokenDetails.getD 1 none))).set "nativeTokenDetails"
              (optTokenJson (tokenDetails.getD 2 none))
            let svcs := servicesToRun params available builders
            if svcs.isEmpty then
              ⟨.ok (Json.obj [("success", .bool false),
                ("message", .str "No valid quotes found.")]), tf.tokens, gp.2 ++ tf.trace⟩
            else
              let run := runServices svcs extended
              ⟨.ok (aggregateResults run.1), tf.tokens, gp.2 ++ tf.trace ++ run.2⟩

/-- Result of one `process_quote` run: the caller-visible value, both
correlation caches, the token map and the trace. -/
structure ProcOut where
  res : Except String Json
  cache : List (String × Json)
  quoteCache : List (String × Json)
  tokens : List (String × Json)
  trace : List NetEvent

/-- `process_quote`: every `Ok` routing result — success envelope or
failure envelope alike — gets a fresh `requestId` (the `reqId` parameter
models `Uuid::new_v4`), is stored in both caches (`entry…or_insert`), and
is answered as `{requestId, success, data-or-[]}`; the scheduled removal
after 600 seconds is a timing effect outside this model. -/
def processQuote (params : Json) (st : AppStateM)
    (builders : List (String × (Json → BuilderOutcome))) (reqId : String)
    (cache quoteCache : List (String × Json)) : ProcOut :=
  let r := routeQuote params st builders
  match r.res with
  | .ok response =>
    let cache' := if (dmGet cache reqId).isSome then cache else dmInsert cache reqId response
    let quoteCache' :=
      if (dmGet quoteCache reqId).isSome then quoteCache
      else dmInsert quoteCache reqId response
    ⟨.ok (Json.obj [("requestId", .str reqId), ("success", response.idx "success"),
      ("data", (response.get? "data").getD (.arr []))]),
      cache', quoteCache', r.tokens, r.trace⟩
  | .error e =>
    ⟨.error ("Quote service failed: " ++ e), cache, quoteCache, r.tokens, r.trace⟩

/-!
## Concrete fixtures

A small well-formed application state: two enabled providers accepting
every token on chain 1, a token cache holding the three tokens a request
on chain 1 needs, and oracles that always answer.
-/

def exptOk? : Except String Json → Option Json
  | .ok v => some v
  | _ => none

def fmtOk? : Except FmtErr Json → Option Json
  | .ok v => some v
  | _ => none

def addrA : String := "0xaaaaaaaaaaaaaaaaaaaaaaaaaaaaaaaaaaaaaaaa"
def addrB : String := "0xbbbbbbbbbbbbbbbbbbbbbbbbbbbbbbbbbbbbbbbb"

def tokJson (addr : String) (chainId : ℕ) : Json :=
  tokenInfoJson ⟨addr, chainId, "TKN", 18, "Token", "TKN", "", some 1⟩

def cTokensCache : List (String × Json) :=
  [("tokens", Json.obj [("tokens", Json.obj
    [("1", Json.arr [tokJson addrA 1, tokJson addrB 1, tokJson zeroAddress 1])])])]

def cDappEntry : Json := Json.obj [("enabled", .bool true), ("tokens", .arr [.str "all"]),
  ("fromChainIds", .arr [.num 1]), ("toChainIds", .arr [.num 1]), ("bridge", .bool true)]

def cDappConfig2 : Json := Json.obj [("d1", cDappEntry), ("d2", cDappEntry)]

def cParams : Json := Json.obj [("fromChainId", .num 1), ("fromAddress", .str addrA),
  ("amount", .str "1000000000000000000"), ("fromTokenAddress", .str addrA),
  ("toTokenAddress", .str addrB), ("toAddress", .str addrA), ("toChainId", .num 1),
  ("options", Json.obj [("slippage", .num 1)])]

def quoteVal (amt : String) : Json := Json.obj [("tool", .str "t"), ("fromChainId", .num 1),
  ("fromAmount", .str "1"), ("toAmount", .str amt), ("fromToken", .obj []),
  ("toToken", .obj []), ("transaction", .obj [])]

def cBuilders2 : List (String × (Json → BuilderOutcome)) :=
  [("d1", fun _ => .ok (quoteVal "1")), ("d2", fun _ => .ok (quoteVal "2"))]

def cState : AppStateM := ⟨cDappConfig2, Json.obj [], cTokensCache,
  fun _ => true, fun _ => some 1000000000, fun _ _ => some ("T", 18)⟩

/-- The same state with an empty provider-configuration table: no dapp is
ever eligible. -/
def cStateNoDapps : AppStateM := ⟨Json.obj [], Json.obj [], cTokensCache,
  fun _ => true, fun _ => some 1000000000, fun _ _ => some ("T", 18)⟩

/-!
## Claims
-/

/-- C1 (counterexample): a full aggregation with two surviving providers,
collected as `d1` (toAmount "1") then `d2` (toAmount "2").  The success
envelope ranks `d2` first, but the element at rank position 1 carries
`id = 2` — ids were assigned by collection order before sorting, so the
rank-1 element does not have id 1. -/
theorem c1_counterexample :
    (exptOk? (routeQuote cParams cState cBuilders2).res).map (fun env =>
      (env.idx "success", ((env.idx "data").at 0).idx "id",
        (((env.idx "data").at 0).idx "data").idx "toAmount",
        ((env.idx "data").at 1).idx "id")) =
      some (Json.bool true, Json.num 2, Json.str "2", Json.num 1) := by rfl

/-- C1 (amended): ids are 1-based sequential in **collection** order,
assigned before the sort; the success envelope's data therefore carries
the ids 1..N as a permutation (in rank order only when collection order
already agrees with rank order). -/
theorem c1_amended (results : List Json) :
    ((structureResults results).map (fun e => e.idx "id") =
      (List.range results.length).map (fun i => Json.num ((i + 1 : ℕ) : ℚ))) ∧
    ((((aggregateResults results).idx "data").asArr.getD []).map (fun e => e.idx "id")).Perm
      ((List.range results.length).map (fun i => Json.num ((i + 1 : ℕ) : ℚ))) := by
  have hstruct : (structureResults results).map (fun e => e.idx "id") =
      (List.range results.length).map (fun i => Json.num ((i + 1 : ℕ) : ℚ)) := by
    unfold structureResults
    rw [List.map_map]
    have h1 : ((fun e => Json.idx e "id") ∘ fun p : ℕ × Json =>
        Json.obj [("id", .num ((p.1 + 1 : ℕ) : ℚ)), ("name", p.2.idx "name"),
          ("data", p.2.idx "data")]) =
        (fun p : ℕ × Json => Json.num ((p.1 + 1 : ℕ) : ℚ)) := by
      funext p
      rfl
    rw [h1]
    have h2 : (fun p : ℕ × Json => Json.num ((p.1 + 1 : ℕ) : ℚ)) =
        (fun i => Json.num ((i + 1 : ℕ) : ℚ)) ∘ Prod.fst := by
      funext p
      rfl
    rw [h2, ← List.map_map, List.enum_map_fst]
  refine ⟨hstruct, ?_⟩
  unfold aggregateResults
  by_cases he : results.isEmpty
  · rw [if_pos he]
    have hlen : results.length = 0 := List.isEmpty_iff_length_eq_zero.mp he
    rw [hlen]
    exact List.Perm.refl []
  · rw [if_neg he]
    have hdata : (((Json.obj [("success", .bool true),
        ("data", .arr (sortQuotes (structureResults results)))]).idx "data").asArr.getD []) =
        sortQuotes (structureResults results) := rfl
    rw [hdata]
    have hp := (List.perm_insertionSort quoteGe (structureResults results)).map
      (fun e => e.idx "id")
    rw [hstruct] at hp
    exact hp

/-- C2: whenever the aggregation produces a success envelope, its data
sequence is ordered by descending byte-wise (scalar-value) string
comparison of the `toAmount` field: every earlier element's key is
greater than or equal to every later element's key. -/
theorem c2_sorted_descending (results : List Json)
    (h : (aggregateResults results).idx "success" = Json.bool true) :
    List.Pairwise (fun a b => rustStrLe (entryKey b) (entryKey a) = true)
      (((aggregateResults results).idx "data").asArr.getD []) := by
  unfold aggregateResults at h ⊢
  by_cases he : results.isEmpty
  · rw [if_pos he] at h
    simp [Json.idx, Json.get?] at h
  · rw [if_neg he]
    have hdata : (((Json.obj [("success", .bool true),
        ("data", .arr (sortQuotes (structureResults results)))]).idx "data").asArr.getD []) =
        sortQuotes (structureResults results) := rfl
    rw [hdata]
    exact List.sorted_insertionSort quoteGe (structureResults results)

def cResults2 : List Json :=
  [Json.obj [("name", .str "d1"), ("data", quoteVal "1")],
   Json.obj [("name", .str "d2"), ("data", quoteVal "2")]]

/-- C2 (witness): the sortedness theorem applied to a concrete
aggregation of two surviving results. -/
theorem c2_witness :
    (aggregateResults cResults2).idx "success" = Json.bool true ∧
    List.Pairwise (fun a b => rustStrLe (entryKey b) (entryKey a) = true)
      (((aggregateResults cResults2).idx "data").asArr.getD []) :=
  ⟨rfl, c2_sorted_descending cResults2 rfl⟩

theorem fetchGasPriceLoop_trace (chainId : ℕ) (hasP : Bool) (gasTry : ℕ → Option ℕ) :
    ∀ f att e, e ∈ (fetchGasPriceLoop chainId hasP gasTry att f).2 →
      e = NetEvent.gasRpc chainId := by
  intro f
  induction f with
  | zero => intro att e he; simp [fetchGasPriceLoop] at he
  | succ f ih =>
    intro att e he
    rw [fetchGasPriceLoop] at he
    by_cases hp : hasP
    · rw [if_pos hp] at he
      cases hg : gasTry att with
      | some w => rw [hg] at he; simpa using he
      | none =>
        rw [hg] at he
        simp only [List.mem_cons] at he
        rcases he with he | he
        · exact he
        · exact ih (att + 1) e he
    · rw [if_neg hp] at he
      simp at he

/-- C3 (counterexample): with an empty provider-configuration table the
eligible set is empty and the aggregation returns the failure envelope,
but an outbound gas-price RPC has already been made — the claim's "no
outbound network call of any kind" fails for the gas-price fetch. -/
theorem c3_counterexample :
    filterDapps addrA 1 1 cStateNoDapps.dappConfig cStateNoDapps.rpcConfig = [] ∧
    (routeQuote cParams cStateNoDapps cBuilders2).res =
      .ok (Json.obj [("success", .bool false), ("message", .str "No dApps available")]) ∧
    (routeQuote cParams cStateNoDapps cBuilders2).trace = [NetEvent.gasRpc 1] :=
  ⟨rfl, rfl, rfl⟩

/-- C3 (amended): whenever the eligible set is empty, the aggregation
returns the `"No dApps available"` failure envelope and performs no
token-metadata fetch and no provider call — but the gas-price fetch has
already happened, so the trace is exactly the gas-price fetch's RPC
attempts (every event a gas RPC on the source chain). -/
theorem c3_amended (params : Json) (st : AppStateM)
    (builders : List (String × (Json → BuilderOutcome)))
    (fromChainId : ℕ) (fromT toT : String)
    (h1 : (params.idx "fromChainId").asU64 = some fromChainId)
    (h2 : (params.idx "fromTokenAddress").asStr = some fromT)
    (h3 : (params.idx "toTokenAddress").asStr = some toT)
    (h4 : filterDapps fromT fromChainId ((params.idx "toChainId").asU64.getD fromChainId)
      st.dappConfig st.rpcConfig = []) :
    (routeQuote params st builders).res =
      .ok (Json.obj [("success", .bool false), ("message", .str "No dApps available")]) ∧
    (routeQuote params st builders).trace =
      (fetchGasPrice fromChainId (st.hasProvider fromChainId) st.gasTry).2 ∧
    ∀ e ∈ (routeQuote params st builders).trace, e = NetEvent.gasRpc fromChainId := by
  have hroute : routeQuote params st builders =
      ⟨.ok (Json.obj [("success", .bool false), ("message", .str "No dApps available")]),
        st.tokens, (fetchGasPrice fromChainId (st.hasProvider fromChainId) st.gasTry).2⟩ := by
    unfold routeQuote
    rw [h1, h2, h3]
    simp only [h4, List.isEmpty_nil, if_true]
  refine ⟨by rw [hroute], by rw [hroute], ?_⟩
  rw [hroute]
  exact fun e he => fetchGasPriceLoop_trace fromChainId (st.hasProvider fromChainId)
    st.gasTry 10 0 e he

/-- C3 (witness): the amended statement at the concrete empty-config
state. -/
theorem c3_witness :
    (routeQuote cParams cStateNoDapps cBuilders2).res =
      .ok (Json.obj [("success", .bool false), ("message", .str "No dApps available")]) ∧
    (routeQuote cParams cStateNoDapps cBuilders2).trace =
      (fetchGasPrice 1 (cStateNoDapps.hasProvider 1) cStateNoDapps.gasTry).2 ∧
    ∀ e ∈ (routeQuote cParams cStateNoDapps cBuilders2).trace, e = NetEvent.gasRpc 1 :=
  c3_amended cParams cStateNoDapps cBuilders2 1 addrA addrB rfl rfl rfl rfl

theorem dmGet_dmInsert (m : List (String × Json)) (k : String) (v : Json) :
    dmGet (dmInsert m k v) k = some v := by
  unfold dmGet dmInsert
  split_ifs with h
  · induction m with
    | nil => simp [List.find?] at h
    | cons p m ih =>
      by_cases hp : (p.1 == k) = true
      · rw [List.map_cons, if_pos hp, List.find?_cons]
        simp
      · have hpf : (p.1 == k) = false := by simpa using hp
        rw [List.map_cons, if_neg hp, List.find?_cons]
        simp only [hpf]
        simp only [List.find?_cons, hpf] at h
        exact ih h
  · induction m with
    | nil => simp [List.find?]
    | cons p m ih =>
      by_cases hp : (p.1 == k) = true
      · exact absurd (by simp [List.find?_cons, hp]) h
      · have hpf : (p.1 == k) = false := by simpa using hp
        rw [List.cons_append, List.find?_cons]
        simp only [hpf]
        simp only [List.find?_cons, hpf] at h
        exact ih h

/-- C4 (counterexample): the empty-candidate aggregation failure comes
back from `route_quote` as `Ok`, so `process_quote` allocates a
`requestId`, stores the failure envelope in both caches, and answers
`{requestId, success: false, data: []}` — not `{success: false, message}`
and not without a requestId. -/
theorem c4_counterexample :
    (processQuote cParams cStateNoDapps cBuilders2 "req-1" [] []).res =
      .ok (Json.obj [("requestId", .str "req-1"), ("success", Json.bool false),
        ("data", .arr [])]) ∧
    dmGet (processQuote cParams cStateNoDapps cBuilders2 "req-1" [] []).cache "req-1" =
      some (Json.obj [("success", .bool false), ("message", .str "No dApps available")]) ∧
    dmGet (processQuote cParams cStateNoDapps cBuilders2 "req-1" [] []).quoteCache "req-1" =
      some (Json.obj [("success", .bool false), ("message", .str "No dApps available")]) :=
  ⟨rfl, rfl, rfl⟩

/-- C4 (amended): a failure that `route_quote` surfaces as an `Err` value
(invalid fields, token-metadata failure) yields an error with no
requestId allocation and unchanged caches; but an aggregation failure
surfaced as an `Ok` envelope with `success: false` (empty candidate set,
no valid quotes) does get a fresh requestId, is stored in both
correlation caches, and is answered as `{requestId, success: false,
data: []}` with the message dropped. -/
theorem c4_amended (params : Json) (st : AppStateM)
    (builders : List (String × (Json → BuilderOutcome))) (reqId : String)
    (cache quoteCache : List (String × Json)) :
    (∀ e, (routeQuote params st builders).res = .error e →
      (processQuote params st builders reqId cache quoteCache).res =
        .error ("Quote service failed: " ++ e) ∧
      (processQuote params st builders reqId cache quoteCache).cache = cache ∧
      (processQuote params st builders reqId cache quoteCache).quoteCache = quoteCache) ∧
    (∀ env, (routeQuote params st builders).res = .ok env →
      env.idx "success" = Json.bool false →
      env.get? "data" = none →
      dmGet cache reqId = none →
      dmGet quoteCache reqId = none →
      (processQuote params st builders reqId cache quoteCache).res =
        .ok (Json.obj [("requestId", .str reqId), ("success", Json.bool false),
          ("data", .arr [])]) ∧
      dmGet (processQuote params st builders reqId cache quoteCache).cache reqId = some env ∧
      dmGet (processQuote params st builders reqId cache quoteCache).quoteCache reqId =
        some env) := by
  constructor
  · intro e he
    simp only [processQuote, he]
    exact ⟨trivial, trivial, trivial⟩
  · intro env hok hsucc hdata hc hq
    simp only [processQuote, hok, hc, hq, Option.isSome_none, Bool.false_eq_true,
      if_false, hsucc, hdata]
    refine ⟨rfl, ?_, ?_⟩
    · exact dmGet_dmInsert cache reqId env
    · exact dmGet_dmInsert quoteCache reqId env

/-- C4 (witness): the amended statement at the empty-config state, where
`route_quote` returns the failure envelope as `Ok`. -/
theorem c4_witness :
    (routeQuote cParams cStateNoDapps cBuilders2).res =
      .ok (Json.obj [("success", .bool false), ("message", .str "No dApps available")]) ∧
    (processQuote cParams cStateNoDapps cBuilders2 "req-1" [] []).res =
      .ok (Json.obj [("requestId", .str "req-1"), ("success", Json.bool false),
        ("data", .arr [])]) ∧
    dmGet (processQuote cParams cStateNoDapps cBuilders2 "req-1" [] []).cache "req-1" =
      some (Json.obj [("success", .bool false), ("message", .str "No dApps available")]) ∧
    dmGet (processQuote cParams cStateNoDapps cBuilders2 "req-1" [] []).quoteCache "req-1" =
      some (Json.obj [("success", .bool false), ("message", .str "No dApps available")]) :=
  ⟨rfl,
    ((c4_amended cParams cStateNoDapps cBuilders2 "req-1" [] []).2
      (Json.obj [("success", .bool false), ("message", .str "No dApps available")])
      rfl rfl rfl rfl rfl).1,
    ((c4_amended cParams cStateNoDapps cBuilders2 "req-1" [] []).2
      (Json.obj [("success", .bool false), ("message", .str "No dApps available")])
      rfl rfl rfl rfl rfl).2.1,
    ((c4_amended cParams cStateNoDapps cBuilders2 "req-1" [] []).2
      (Json.obj [("success", .bool false), ("message", .str "No dApps available")])
      rfl rfl rfl rfl rfl).2.2⟩

theorem runServices_map_name (svcs : List (String × (Json → BuilderOutcome)))
    (extended : Json) :
    ((runServices svcs extended).1).map (fun e => e.idx "name") =
      (svcs.filter (fun p => outcomeValid (p.2 extended))).map (fun p => Json.str p.1) := by
  induction svcs with
  | nil => rfl
  | cons p svcs ih =>
    rw [runServices]
    cases hsvc : p.2 extended with
    | ok v =>
      dsimp only
      by_cases hv : validateResponseFormat v = true
      · rw [if_pos hv]
        simp only [List.map_cons]
        rw [List.filter_cons_of_pos (by simp [outcomeValid, hsvc, hv])]
        simp only [List.map_cons]
        exact congrArg _ ih
      · rw [if_neg hv]
        rw [List.filter_cons_of_neg (by simp [outcomeValid, hsvc, hv])]
        exact ih
    | err e =>
      dsimp only
      rw [List.filter_cons_of_neg (by simp [outcomeValid, hsvc])]
      exact ih
    | timeout =>
      dsimp only
      rw [List.filter_cons_of_neg (by simp [outcomeValid, hsvc])]
      exact ih

theorem runServices_ne_nil (svcs : List (String × (Json → BuilderOutcome)))
    (extended : Json) (h : ∃ p ∈ svcs, outcomeValid (p.2 extended) = true) :
    (runServices svcs extended).1 ≠ [] := by
  intro hnil
  obtain ⟨p, hmem, hval⟩ := h
  have hmap := runServices_map_name svcs extended
  rw [hnil] at hmap
  have hfil : svcs.filter (fun q => outcomeValid (q.2 extended)) = [] := by
    have h' := hmap.symm
    simp only [List.map_nil] at h'
    exact List.map_eq_nil_iff.mp h'
  have hpmem : p ∈ svcs.filter (fun q => outcomeValid (q.2 extended)) :=
    List.mem_filter.mpr ⟨hmem, hval⟩
  rw [hfil] at hpmem
  simp at hpmem

theorem structureResults_map_name (results : List Json) :
    (structureResults results).map (fun e => e.idx "name") =
      results.map (fun r => r.idx "name") := by
  unfold structureResults
  rw [List.map_map]
  have h1 : ((fun e => Json.idx e "name") ∘ fun p : ℕ × Json =>
      Json.obj [("id", .num ((p.1 + 1 : ℕ) : ℚ)), ("name", p.2.idx "name"),
        ("data", p.2.idx "data")]) =
      (fun r : Json => r.idx "name") ∘ Prod.snd := by
    funext p
    rfl
  rw [h1, ← List.map_map, List.enum_map_snd]

/-- C7: if at least one candidate provider returns a valid quote in time,
the aggregation over the collected outcomes is a success envelope, and
the providers appearing in `data` are exactly (as a multiset) the
candidates whose outcome survived — failed, timed-out or shape-invalid
providers are excluded without preventing the others from being
collected. -/
theorem c7_partial_failure_tolerated (svcs : List (String × (Json → BuilderOutcome)))
    (extended : Json) (h : ∃ p ∈ svcs, outcomeValid (p.2 extended) = true) :
    (aggregateResults (runServices svcs extended).1).idx "success" = Json.bool true ∧
    ((((aggregateResults (runServices svcs extended).1).idx "data").asArr.getD []).map
      (fun e => e.idx "name")).Perm
      ((svcs.filter (fun p => outcomeValid (p.2 extended))).map (fun p => Json.str p.1)) := by
  have hne := runServices_ne_nil svcs extended h
  have hemp : (runServices svcs extended).1.isEmpty = false := by
    rcases hr : (runServices svcs extended).1 with _ | _
    · exact absurd hr hne
    · rfl
  have hagg : aggregateResults (runServices svcs extended).1 =
      Json.obj [("success", .bool true),
        ("data", .arr (sortQuotes (structureResults (runServices svcs extended).1)))] := by
    unfold aggregateResults
    rw [hemp]
    simp
  rw [hagg]
  refine ⟨rfl, ?_⟩
  have hdata : (((Json.obj [("success", .bool true),
      ("data", .arr (sortQuotes (structureResults (runServices svcs extended).1)))]).idx
      "data").asArr.getD []) =
      sortQuotes (structureResults (runServices svcs extended).1) := rfl
  rw [hdata]
  have hp := (List.perm_insertionSort quoteGe
    (structureResults (runServices svcs extended).1)).map (fun e => e.idx "name")
  rw [structureResults_map_name, runServices_map_name] at hp
  exact hp

def c7Svcs : List (String × (Json → BuilderOutcome)) :=
  [("good", fun _ => .ok (quoteVal "2")), ("raises", fun _ => .err "boom"),
   ("slow", fun _ => .timeout), ("malformed", fun _ => .ok Json.null)]

/-- C7 (witness): one surviving provider among an erroring, a timed-out
and a shape-invalid one. -/
theorem c7_witness :
    (∃ p ∈ c7Svcs, outcomeValid (p.2 (Json.obj [])) = true) ∧
    (aggregateResults (runServices c7Svcs (Json.obj [])).1).idx "success" = Json.bool true ∧
    ((((aggregateResults (runServices c7Svcs (Json.obj [])).1).idx "data").asArr.getD []).map
      (fun e => e.idx "name")).Perm
      ((c7Svcs.filter (fun p => outcomeValid (p.2 (Json.obj [])))).map
        (fun p => Json.str p.1)) :=
  ⟨⟨("good", fun _ => .ok (quoteVal "2")), by simp [c7Svcs], rfl⟩,
    c7_partial_failure_tolerated c7Svcs (Json.obj [])
      ⟨("good", fun _ => .ok (quoteVal "2")), by simp [c7Svcs], rfl⟩⟩

theorem asStr_eq_some_iff (j : Json) (s : String) : j.asStr = some s ↔ j = Json.str s := by
  cases j <;> simp [Json.asStr]

def c6Entry : Json := Json.obj [("enabled", .bool true), ("tokens", .arr [.str "0xABCD"]),
  ("fromChainIds", .arr [.num 1]), ("toChainIds", .arr [.num 1]), ("bridge", .bool false)]

def c6Config : Json := Json.obj [("caseDapp", c6Entry)]

/-- C6 (counterexample): a provider that is enabled and accepts the
requested chains, whose token list carries the requested address in a
different letter case (`"0xABCD"` vs requested `"0xabcd"`), is **not**
included in the eligible set; with the exact case it is. -/
theorem c6_counterexample :
    filterDapps "0xabcd" 1 1 c6Config (Json.obj []) = [] ∧
    filterDapps "0xABCD" 1 1 c6Config (Json.obj []) = ["caseDapp"] ∧
    dappSupportsToken c6Entry "0xabcd" = false ∧
    dappSupportsToken c6Entry "0xABCD" = true :=
  ⟨rfl, rfl, rfl, rfl⟩

/-- C6 (amended): the token match of the eligibility filter is exact and
case-sensitive: with a token list present, a provider's token test
succeeds precisely when the list contains the literal string `"all"`, or
the literal requested address, or the list is non-empty and the
provider's `ethAddress` equals the requested address exactly. -/
theorem c6_amended (config : Json) (toks : List Json) (t : String)
    (h : (config.get? "tokens").bind Json.asArr = some toks) :
    dappSupportsToken config t = true ↔
      Json.str "all" ∈ toks ∨ Json.str t ∈ toks ∨
        (toks ≠ [] ∧ ∃ v, config.get? "ethAddress" = some v ∧ v.asStr = some t) := by
  have hmatch : dappSupportsToken config t = toks.any (fun token =>
      token.asStr == some "all" || token.asStr == some t ||
      ((config.get? "ethAddress").map (fun v => v.asStr == some t)).getD false) := by
    unfold dappSupportsToken
    rw [h]
  rw [hmatch, List.any_eq_true]
  have heth : (((config.get? "ethAddress").map (fun v => v.asStr == some t)).getD false = true)
      ↔ (∃ v, config.get? "ethAddress" = some v ∧ v.asStr = some t) := by
    cases hv : config.get? "ethAddress" with
    | none => simp
    | some v => simp [beq_iff_eq]
  constructor
  · rintro ⟨x, hx, hpx⟩
    simp only [Bool.or_eq_true, beq_iff_eq] at hpx
    rcases hpx with (ha | hb) | hc
    · exact Or.inl ((asStr_eq_some_iff x "all").mp ha ▸ hx)
    · exact Or.inr (Or.inl ((asStr_eq_some_iff x t).mp hb ▸ hx))
    · exact Or.inr (Or.inr ⟨List.ne_nil_of_mem hx, heth.mp hc⟩)
  · rintro (hall | ht | ⟨hne, hv⟩)
    · exact ⟨Json.str "all", hall, by simp [Json.asStr]⟩
    · exact ⟨Json.str t, ht, by simp [Json.asStr]⟩
    · obtain ⟨x, hx⟩ := List.exists_mem_of_ne_nil toks hne
      exact ⟨x, hx, by simp [Bool.or_eq_true, heth.mpr hv]⟩

/-- C6 (witness): the amended characterization at the concrete provider
entry whose token list is `["0xABCD"]`. -/
theorem c6_witness :
    ((c6Entry.get? "tokens").bind Json.asArr = some [Json.str "0xABCD"]) ∧
    (dappSupportsToken c6Entry "0xABCD" = true ↔
      Json.str "all" ∈ [Json.str "0xABCD"] ∨ Json.str "0xABCD" ∈ [Json.str "0xABCD"] ∨
        ([Json.str "0xABCD"] ≠ ([] : List Json) ∧
          ∃ v, c6Entry.get? "ethAddress" = some v ∧ v.asStr = some "0xABCD")) :=
  ⟨rfl, c6_amended c6Entry [Json.str "0xABCD"] "0xABCD" rfl⟩

theorem clampU128_le (z : ℤ) (t : ℕ) (h : z ≤ (t : ℤ)) : clampU128 z ≤ t := by
  unfold clampU128
  split_ifs with h0
  · omega
  · have h1 : min z.toNat (2 ^ 128 - 1) ≤ z.toNat := min_le_left _ _
    have h2 : z.toNat ≤ t := by omega
    omega

theorem toAmountMin_le (t : ℕ) (q : ℚ) (ht : t < 2 ^ 53) (hq : 0 ≤ q) :
    clampU128 (qfloor (rnd (rnd (t : ℚ) * rnd (1 - q)))) ≤ t := by
  have ha : rnd (t : ℚ) = (t : ℚ) := rnd_natCast ht
  rw [ha]
  by_cases hb0 : (1 : ℚ) - q ≤ 0
  · have hb : rnd (1 - q) ≤ 0 := rnd_nonpos hb0
    have hprod : (t : ℚ) * rnd (1 - q) ≤ 0 :=
      mul_nonpos_iff.mpr (Or.inl ⟨by positivity, hb⟩)
    have hr : rnd ((t : ℚ) * rnd (1 - q)) ≤ 0 := rnd_nonpos hprod
    have hfl : qfloor (rnd ((t : ℚ) * rnd (1 - q))) ≤ 0 := by
      rw [qfloor_eq]
      exact Int.floor_nonpos hr
    exact clampU128_le _ _ (by omega)
  · push_neg at hb0
    have hble : rnd (1 - q) ≤ 1 := by
      have h1 : (1 : ℚ) - q ≤ 1 := by linarith
      have := rnd_mono (le_of_lt hb0) h1
      rwa [rnd_one] at this
    have hbnn : (0 : ℚ) ≤ rnd (1 - q) := rnd_nonneg (le_of_lt hb0)
    have hprod_le : (t : ℚ) * rnd (1 - q) ≤ (t : ℚ) :=
      mul_le_of_le_one_right (by positivity) hble
    have hprod_nn : (0 : ℚ) ≤ (t : ℚ) * rnd (1 - q) := mul_nonneg (by positivity) hbnn
    have hr : rnd ((t : ℚ) * rnd (1 - q)) ≤ rnd (t : ℚ) := rnd_mono hprod_nn hprod_le
    rw [ha] at hr
    have hfl : qfloor (rnd ((t : ℚ) * rnd (1 - q))) ≤ (t : ℤ) := by
      rw [qfloor_eq]
      calc ⌊rnd ((t : ℚ) * rnd (1 - q))⌋ ≤ ⌊(t : ℚ)⌋ := Int.floor_le_floor hr
        _ = (t : ℤ) := Int.floor_natCast t
    exact clampU128_le _ _ hfl

def fmtTokDetails : Json := tokenInfoJson ⟨addrA, 1, "TKN", 18, "Token", "TKN", "", some 1⟩

def c5Params : Json := Json.obj [("fromChainId", .num 1), ("amount", .str "1000"),
  ("toAddress", .str addrA), ("toChainId", .num 1),
  ("options", Json.obj [("slippage", .num (1 / 2 ^ 100))]),
  ("fromAddress", .str addrA),
  ("fromTokenDetails", fmtTokDetails), ("toTokenDetails", fmtTokDetails),
  ("nativeTokenDetails", fmtTokDetails)]

def c5Tx : Json := Json.obj [("from", .str addrA), ("to", .str addrB), ("value", .str "0"),
  ("data", .str "0x"), ("chainId", .num 1), ("gasPrice", .str "0"), ("gas", .str "0")]

def c5Out : Except FmtErr Json :=
  formatSwapDetails "t" c5Params c5Tx (Json.str "9007199254740995") (Json.str addrA)
    (Json.arr [.str "1000000000", .str "1.000000000"]) (some "21000") none none
    (fun _ => true) none (fun _ => "1")

/-- C5 (counterexample): a quote produced by the normalizer, with
positive slippage `2^-100` and no no-slippage flag, whose `toAmountMin`
(`"9007199254740996"`) **exceeds** `toAmount` (`"9007199254740995"`):
binary64 conversion rounds the amount up and the tiny slippage factor
rounds away, so the claimed `toAmountMin ≤ toAmount` fails above
`2^53`. -/
theorem c5_counterexample :
    (fmtOk? c5Out).map (fun j => (j.idx "toAmount", j.idx "toAmountMin")) =
      some (Json.str "9007199254740995", Json.str "9007199254740996") ∧
    (0 : ℚ) < 1 / 2 ^ 100 ∧ (9007199254740995 : ℕ) < 9007199254740996 :=
  ⟨by rfl, by norm_num, by norm_num⟩

/-- C5 (amended): with the no-slippage flag, `toAmountMin` equals the
parsed `toAmount`; without it, `toAmountMin` is the binary64 product
`toAmount × (1 − slippage)` floored (and saturated into `u128`), which
stays at or below `toAmount` whenever `toAmount < 2^53` and the slippage
is non-negative — the documented example (`"2500000000"` at 1%, whether
the 1% comes from a numeric slippage `1` or from the default) still
yields `"2475000000"`. -/
theorem c5_amended :
    (∀ (s : Option String) (q : ℚ),
      toAmountMinU128 true s q = (parseDecNat (s.getD "0")).getD 0) ∧
    (∀ (s : Option String) (t : ℕ) (q : ℚ), parseDecNat (s.getD "0") = some t →
      t < 2 ^ 53 → 0 ≤ q → toAmountMinU128 false s q ≤ t) ∧
    (toAmountMinU128 false (some "2500000000") (slippageFactor (Json.num 1)) = 2475000000 ∧
      toAmountMinU128 false (some "2500000000") (slippageFactor (Json.str "1")) = 2475000000) := by
  refine ⟨?_, ?_, by decide, by decide⟩
  · intro s q
    simp [toAmountMinU128]
  · intro s t q hparse ht hq
    by_cases hs : s ≠ some "none"
    · have hmin : toAmountMinU128 false s q =
          clampU128 (qfloor (rnd (rnd (t : ℚ) * rnd (1 - q)))) := by
        simp [toAmountMinU128, hparse, hs]
      rw [hmin]
      exact toAmountMin_le t q ht hq
    · have hmin : toAmountMinU128 false s q = t := by
        simp only [toAmountMinU128, hparse, Option.getD_some]
        rw [if_neg (by simp), if_neg hs]
      rw [hmin]

/-- C5 (witness): the bound applied at the documented example amount with
the 1% slippage factor. -/
theorem c5_witness :
    parseDecNat "2500000000" = some 2500000000 ∧ 2500000000 < 2 ^ 53 ∧
    (0 : ℚ) ≤ slippageFactor (Json.num 1) ∧
    toAmountMinU128 false (some "2500000000") (slippageFactor (Json.num 1)) ≤ 2500000000 :=
  ⟨by decide, by decide, by decide,
    c5_amended.2.1 (some "2500000000") 2500000000 (slippageFactor (Json.num 1))
      (by decide) (by decide) (by decide)⟩

def c10Params : Json := Json.obj [("fromChainId", .num 1), ("amount", .str "1000"),
  ("toAddress", .str addrA), ("toChainId", .num 1),
  ("options", Json.obj []),
  ("fromAddress", .str addrA),
  ("fromTokenDetails", fmtTokDetails), ("toTokenDetails", fmtTokDetails),
  ("nativeTokenDetails", fmtTokDetails)]

def c10Out : Except FmtErr Json :=
  formatSwapDetails "t" c10Params c5Tx (Json.str "100") (Json.str addrA)
    (Json.arr [.str "1000000000", .str "1.000000000"]) (some "21000") none none
    (fun _ => true) none (fun _ => "1")

/-- C10 (counterexample): a normalization whose `options` object has **no**
`slippage` field does not silently default — the serde-map indexing
`options["slippage"]` panics (`"no entry found for key"`), aborting the
aggregation task. -/
theorem c10_counterexample :
    c10Out = Except.error (FmtErr.panicked "no entry found for key") := by rfl

/-- C10 (amended): when `options.slippage` is **present but not a
number**, the normalizer silently falls back to `1.0` and uses the 1%
binary64 factor `rnd(1/100)` (the same factor as an explicit numeric
slippage of `1`, and not zero slippage) in the `toAmountMin`
computation; when the field is absent the map indexing panics instead of
defaulting. -/
theorem c10_amended (sv : Json) (h : sv.asF64 = none) :
    slippageFactor sv = rnd ((1 : ℚ) / 100) ∧ (0 : ℚ) < slippageFactor sv ∧
    ∀ s : Option String, toAmountMinU128 false s (slippageFactor sv) =
      toAmountMinU128 false s (slippageFactor (Json.num 1)) := by
  have hfac : slippageFactor sv = rnd ((1 : ℚ) / 100) := by
    unfold slippageFactor
    rw [h]
    rfl
  refine ⟨hfac, ?_, ?_⟩
  · rw [hfac]
    decide
  · intro s
    have h1 : slippageFactor (Json.num 1) = rnd ((1 : ℚ) / 100) := rfl
    rw [hfac, h1]

/-- C10 (witness): the amended statement at the string slippage `"1"`
(the documented request shape), which is not representable as a number
and therefore takes the 1% default. -/
theorem c10_witness :
    (Json.str "1").asF64 = none ∧
    slippageFactor (Json.str "1") = rnd ((1 : ℚ) / 100) ∧
    (0 : ℚ) < slippageFactor (Json.str "1") ∧
    ∀ s : Option String, toAmountMinU128 false s (slippageFactor (Json.str "1")) =
      toAmountMinU128 false s (slippageFactor (Json.num 1)) :=
  ⟨rfl, (c10_amended (Json.str "1") rfl).1, (c10_amended (Json.str "1") rfl).2.1,
    (c10_amended (Json.str "1") rfl).2.2⟩

def c8Tokens : List (String × Json) :=
  [("tokens", Json.obj [("tokens", Json.obj [("1", Json.arr [tokJson addrA 1])])])]

/-- C8: the resolver performs a network fetch for a pair it has already
resolved over the network and written back.  The first call for
`(addrB, 1)` misses the snapshot, fetches, and stores the result under
the `new_tokens` key — but the lookup reads the `tokens` key (falling
back to `new_tokens` only when `tokens` is absent) and expects an inner
`tokens` wrapper the write-back never creates, so the second call
fetches over the network again, contradicting the resolver's own
"save the fetched token in the cache" intent. -/
theorem c8_refetch_after_cache_write :
    (fetchTokenDetails [(addrB, 1)] c8Tokens (fun _ => true)
      (fun _ _ => some ("T", 18))).trace = [NetEvent.tokenRpc addrB 1] ∧
    (dmGet (fetchTokenDetails [(addrB, 1)] c8Tokens (fun _ => true)
      (fun _ _ => some ("T", 18))).tokens "new_tokens").isSome = true ∧
    (fetchTokenDetails [(addrB, 1)]
      (fetchTokenDetails [(addrB, 1)] c8Tokens (fun _ => true)
        (fun _ _ => some ("T", 18))).tokens
      (fun _ => true) (fun _ _ => some ("T", 18))).trace = [NetEvent.tokenRpc addrB 1] :=
  ⟨rfl, rfl, rfl⟩

theorem found_pairs_eq (tokens : List (String × Json)) (c : ℕ)
    (pairs : List (String × ℕ)) :
    (match cacheSource tokens with
     | some tv => findTokensInJson tv c (pairs.map (fun p => normalizeTokenAddress p.1))
     | none => List.replicate pairs.length none) =
    pairs.map (fun p => cacheHit tokens c (normalizeTokenAddress p.1)) := by
  cases h : cacheSource tokens with
  | none =>
    simp only [cacheHit, h]
    induction pairs with
    | nil => rfl
    | cons p rest ih => rw [List.length_cons, List.replicate_succ, List.map_cons, ih]
  | some tv =>
    simp only [cacheHit, findTokensInJson, h, List.map_map]
    rfl

theorem parseCachePhase_map (found : List (Option Json))
    (h : ∀ v, some v ∈ found → (parseTokenInfo v).isSome = true) :
    parseCachePhase found = .ok (found.map (fun o => o.bind parseTokenInfo)) := by
  induction found with
  | nil => rfl
  | cons o rest ih =>
    cases o with
    | none =>
      simp only [parseCachePhase]
      rw [ih (fun v hv => h v (List.mem_cons_of_mem _ hv))]
      rfl
    | some v =>
      have hv := h v (List.mem_cons_self _ _)
      obtain ⟨ti, hti⟩ := Option.isSome_iff_exists.mp hv
      simp only [parseCachePhase, hti]
      rw [ih (fun w hw => h w (List.mem_cons_of_mem _ hw))]
      simp [hti]

theorem networkPhase_trace_map (net : String → ℕ → Option (String × ℕ))
    (hnet : ∀ a c, (net a c).isSome = true)
    (g : (String × ℕ) → Option TokenInfo) :
    ∀ (pairs : List (String × ℕ)) (tokens : List (String × Json)),
    (∀ p ∈ pairs, isH160 (normalizeTokenAddress p.1) = true) →
    (networkPhase (fun _ => true) net
      (pairs.map (fun p => (p, normalizeTokenAddress p.1, g p))) tokens).2.2 =
      pairs.filterMap (fun p => if (g p).isSome then none
        else some (NetEvent.tokenRpc (normalizeTokenAddress p.1) p.2)) := by
  intro pairs
  induction pairs with
  | nil => intro tokens h; rfl
  | cons p rest ih =>
    intro tokens h
    have hrest : ∀ q ∈ rest, isH160 (normalizeTokenAddress q.1) = true :=
      fun q hq => h q (List.mem_cons_of_mem _ hq)
    have hphead : isH160 (normalizeTokenAddress p.1) = true :=
      h p (List.mem_cons_self _ _)
    rw [List.map_cons, List.filterMap_cons]
    cases hg : g p with
    | some t =>
      simp only [networkPhase, hg, Option.isSome_some, if_true]
      exact ih tokens hrest
    | none =>
      obtain ⟨sd, hsd⟩ := Option.isSome_iff_exists.mp
        (hnet (normalizeTokenAddress p.1) p.2)
      simp only [networkPhase, hg, Option.isSome_none, Bool.false_eq_true, if_false]
      have hfetch : fetchTokenFromNetwork (normalizeTokenAddress p.1) p.2
          (fun _ => true) net =
          (.ok ⟨normalizeTokenAddress p.1, p.2, sd.1, sd.2, sd.1, sd.1, "", none⟩,
            [NetEvent.tokenRpc (normalizeTokenAddress p.1) p.2]) := by
        unfold fetchTokenFromNetwork
        rw [if_neg (by simp), if_neg (by simp [hphead]), hsd]
      rw [hfetch]
      simp only []
      rw [ih _ hrest]
      rfl

theorem zip_map_triple {α β γ : Type} (f : α → β) (g : α → γ) :
    ∀ l : List α, l.zip ((l.map f).zip (l.map g)) = l.map (fun a => (a, f a, g a))
  | [] => rfl
  | a :: l => by
    simp only [List.map_cons, List.zip_cons_cons]
    rw [zip_map_triple f g l]

/-- C9: the resolver's cache lookup uses the chain id of the **first**
(address, chainId) pair for every pair in the list; only the network
fallback uses each pair's own chain id.  Concretely: when every network
read succeeds, every address is well-formed, and every cache hit parses,
the network calls performed are exactly one fetch — addressed with the
pair's **own** chain id — for each pair whose address misses the cache
**under the first pair's chain id**. -/
theorem c9_first_chain_lookup (pairs : List (String × ℕ)) (first : String × ℕ)
    (rest : List (String × ℕ)) (tokens : List (String × Json))
    (net : String → ℕ → Option (String × ℕ))
    (hp : pairs = first :: rest)
    (hnet : ∀ a c, (net a c).isSome = true)
    (haddr : ∀ p ∈ pairs, isH160 (normalizeTokenAddress p.1) = true)
    (hparse : ∀ p ∈ pairs, ∀ v,
      cacheHit tokens first.2 (normalizeTokenAddress p.1) = some v →
      (parseTokenInfo v).isSome = true) :
    (fetchTokenDetails pairs tokens (fun _ => true) net).trace =
      pairs.filterMap (fun p =>
        if (cacheHit tokens first.2 (normalizeTokenAddress p.1)).isSome then none
        else some (NetEvent.tokenRpc (normalizeTokenAddress p.1) p.2)) := by
  subst hp
  show (fetchTokenDetails (first :: rest) tokens (fun _ => true) net).trace = _
  unfold fetchTokenDetails
  dsimp only
  rw [found_pairs_eq tokens first.2 (first :: rest)]
  have hpc := parseCachePhase_map
    ((first :: rest).map (fun p => cacheHit tokens first.2 (normalizeTokenAddress p.1)))
    (by
      intro v hv
      obtain ⟨p, hpmem, hpv⟩ := List.mem_map.mp hv
      exact hparse p hpmem v hpv)
  rw [hpc]
  simp only [List.map_map]
  rw [zip_map_triple (fun p : String × ℕ => normalizeTokenAddress p.1)
    ((fun o : Option Json => o.bind parseTokenInfo) ∘
      fun p : String × ℕ => cacheHit tokens first.2 (normalizeTokenAddress p.1))
    (first :: rest)]
  rw [networkPhase_trace_map net hnet
    ((fun o : Option Json => o.bind parseTokenInfo) ∘
      fun p : String × ℕ => cacheHit tokens first.2 (normalizeTokenAddress p.1))
    (first :: rest) tokens haddr]
  apply List.filterMap_congr
  intro p hpmem
  cases hch : cacheHit tokens first.2 (normalizeTokenAddress p.1) with
  | none => simp [Function.comp, hch]
  | some v =>
    have := hparse p hpmem v hch
    obtain ⟨ti, hti⟩ := Option.isSome_iff_exists.mp this
    simp [Function.comp, hch, hti]

def c9Tokens : List (String × Json) :=
  [("tokens", Json.obj [("tokens", Json.obj
    [("1", Json.arr [tokJson addrA 1]), ("2", Json.arr [tokJson addrB 2])])])]

def c9Pairs : List (String × ℕ) := [(addrA, 1), (addrB, 2)]

/-- C9 (witness): a cross-chain request whose destination token `addrB`
is cached under its own chain 2 but looked up under the source chain 1:
the resolver misses and issues a network fetch for it (with its own
chain id), exactly as the theorem's trace formula predicts. -/
theorem c9_witness :
    cacheHit c9Tokens 2 (normalizeTokenAddress addrB) = some (tokJson addrB 2) ∧
    cacheHit c9Tokens 1 (normalizeTokenAddress addrB) = none ∧
    (fetchTokenDetails c9Pairs c9Tokens (fun _ => true) (fun _ _ => some ("T", 18))).trace =
      c9Pairs.filterMap (fun p =>
        if (cacheHit c9Tokens (1 : ℕ) (normalizeTokenAddress p.1)).isSome then none
        else some (NetEvent.tokenRpc (normalizeTokenAddress p.1) p.2)) ∧
    (fetchTokenDetails c9Pairs c9Tokens (fun _ => true) (fun _ _ => some ("T", 18))).trace =
      [NetEvent.tokenRpc addrB 2] := by
  refine ⟨rfl, rfl, ?_, by rfl⟩
  exact c9_first_chain_lookup c9Pairs (addrA, 1) [(addrB, 2)] c9Tokens
    (fun _ _ => some ("T", 18)) rfl (fun _ _ => rfl) (by decide)
    (by
      intro p hp v hv
      rcases List.mem_cons.mp hp with h1 | hrest
      · subst h1
        have h0 : cacheHit c9Tokens (addrA, (1 : ℕ)).2
            (normalizeTokenAddress (addrA, (1 : ℕ)).1) = some (tokJson addrA 1) := rfl
        rw [h0] at hv
        rw [← Option.some.inj hv]
        rfl
      · rcases List.mem_cons.mp hrest with h2 | h3
        · subst h2
          have h0 : cacheHit c9Tokens (addrA, (1 : ℕ)).2
              (normalizeTokenAddress (addrB, (2 : ℕ)).1) = none := rfl
          rw [h0] at hv
          exact absurd hv (by simp)
        · simp at h3)
